import Mathlib

/-!
# The Corrupted Gene (`The_Corrupted_Gene/gene.c`)

A shallow embedding of the gene pipeline: transcription, codon reordering,
translation, folding, and the final comparison against the reference bytes.

Conventions of the embedding.

* A C buffer (`char[]`, `uint8_t[]`) is a `List Nat` of byte values; a pointer
  `p + k` into a buffer is the suffix `List.drop k`.
* A read or a write outside a buffer is undefined behaviour in C; here every
  such access makes the function return `none`.
* Loop counters and lengths (`int i`, `int n`) are natural numbers; a loop
  `for (i = 0; i < n; i++)` is a recursion on the number of iterations left.
  Entries of the permutation table keep the type `int` (`Int`), since they are
  data used as indices.
* `int` arithmetic that can leave the 32-bit range (the mask of `fold`) is
  taken modulo `2^32`; a conversion to `uint8_t` is `% 256`.
-/

namespace CorruptedGene

/-! ## Buffers -/

/-- A C string literal: the bytes of its characters followed by the NUL. -/
def cstr (s : String) : List Nat :=
  s.toList.map Char.toNat ++ [0]

/-- The assignment `buf[i] = v`. -/
def store (buf : List Nat) (i : Nat) (v : Nat) : Option (List Nat) :=
  if i < buf.length then some (buf.set i v) else none

/-- The read `buf[i]` at an index of type `int`. -/
def load (buf : List Nat) (i : Int) : Option Nat :=
  if i < 0 then none else buf[i.toNat]?

/-- The library function `strncmp(s1, s2, n)` on unsigned bytes: the difference at the first
position where the strings differ, `0` when they agree up to `n` bytes or up to a NUL. -/
def strncmp : List Nat → List Nat → Nat → Option Int
  | _, _, 0 => some 0
  | s1, s2, n + 1 =>
    match s1.head?, s2.head? with
    | some c1, some c2 =>
      if c1 ≠ c2 then some ((c1 : Int) - (c2 : Int))
      else if c1 = 0 then some 0
      else strncmp s1.tail s2.tail n
    | _, _ => none

/-- The library function `memcmp(a, b, n)`: the difference at the first of the `n` positions
where the buffers differ, `0` when there is none. -/
def memcmp : List Nat → List Nat → Nat → Option Int
  | _, _, 0 => some 0
  | a, b, n + 1 =>
    match a.head?, b.head? with
    | some x, some y =>
      if x ≠ y then some ((x : Int) - (y : Int))
      else memcmp a.tail b.tail n
    | _, _ => none

/-! ## Genome constants -/

def N_CODONS : Nat := 36

def N_BASES : Nat := N_CODONS * 3

/-- The DNA template strand, `char DNA_TEMPLATE[N_BASES + 1]`. -/
def DNA_TEMPLATE : List Nat :=
  cstr "GATGGAGGCATCACAACTAGAAATAAGGTTGAGGGCGTGGCAACCATGGCTATTAGGAAAGGAGTGGACGTCAGCGGTGGGGCTAACACGATAGAAAGTACAGCGGTA"

def CODON_TABLE_KEYS : List (List Nat) :=
  [ "UUU", "UUC", "UUA", "UUG", "UCU", "UCC", "UCA", "UCG", "UAU", "UAC", "UAA", "UAG",
    "UGU", "UGC", "UGA", "UGG", "CUU", "CUC", "CUA", "CUG", "CCU", "CCC", "CCA", "CCG",
    "CAU", "CAC", "CAA", "CAG", "CGU", "CGC", "CGA" ].map cstr

def CODON_TABLE_VALS : List Nat :=
  [ 0x02, 0x03, 0x09, 0x0c, 0x0f, 0x11, 0x14, 0x17, 0x1b, 0x27, 0x34, 0x35,
    0x39, 0x3c, 0x3f, 0x42, 0x44, 0x48, 0x4c, 0x4e, 0x4f, 0x50, 0x55, 0x56,
    0x5d, 0x6a, 0x71, 0x78, 0x7a, 0x7b, 0x7c ]

/-- The codon permutation table, entries 4 and 11 transposed. -/
def PERM : List Int :=
  [ 0, 1, 2, 3, 11, 5, 6, 7, 8, 9, 10, 4,
    12, 13, 14, 15, 16, 17, 18, 19, 20, 21, 22, 23,
    24, 25, 26, 27, 28, 29, 30, 31, 32, 33, 34, 35 ]

/-- The target sequence (folded amino acid fingerprint). -/
def TARGET : List Nat :=
  [ 0x53, 0x65, 0x63, 0x75, 0x72, 0x69, 0x6e, 0x65, 0x74, 0x73, 0x45, 0x4e,
    0x49, 0x54, 0x7b, 0x63, 0x33, 0x6e, 0x74, 0x72, 0x34, 0x6c, 0x5f, 0x64,
    0x30, 0x67, 0x6d, 0x34, 0x5f, 0x62, 0x72, 0x30, 0x6b, 0x33, 0x6e, 0x7d ]

/-! ## Red herrings -/

/-- The eight codons counted by `analyse_codon_frequency`. -/
def analyse_codons : List (List Nat) :=
  [ "UUU", "UUC", "UUA", "UUG", "CUU", "CUC", "CUA", "CUG" ].map cstr

/-- The inner loop `for (c = 0; c < 8; c++)` of `analyse_codon_frequency`, at codon `i`. -/
def analyse_codon_frequency_inner (mrna : List Nat) (i : Nat) :
    Nat → Nat → List Nat → Option (List Nat)
  | 0, _, counts => some counts
  | k + 1, c, counts =>
    match analyse_codons[c]? with
    | none => none
    | some key =>
      match strncmp (mrna.drop (i * 3)) key 3 with
      | none => none
      | some r =>
        if r = 0 then
          match counts[c]? with
          | none => none
          | some v =>
            match store counts c (v + 1) with
            | none => none
            | some counts1 => analyse_codon_frequency_inner mrna i k (c + 1) counts1
        else analyse_codon_frequency_inner mrna i k (c + 1) counts

/-- The outer loop `for (i = 0; i < n; i++)` of `analyse_codon_frequency`. -/
def analyse_codon_frequency_loop (mrna : List Nat) : Nat → Nat → List Nat → Option (List Nat)
  | 0, _, counts => some counts
  | k + 1, i, counts =>
    match analyse_codon_frequency_inner mrna i 8 0 counts with
    | none => none
    | some counts1 => analyse_codon_frequency_loop mrna k (i + 1) counts1

/-- The function `analyse_codon_frequency(mrna, n)`: the eight counts it prints. -/
def analyse_codon_frequency (mrna : List Nat) (n : Nat) : Option (List Nat) :=
  analyse_codon_frequency_loop mrna n 0 (List.replicate 8 0)

/-- The loop of `validate_structure` counting the bytes above 64. -/
def validate_structure_loop (seq : List Nat) : Nat → Nat → Nat → Option Nat
  | 0, _, gc => some gc
  | k + 1, i, gc =>
    match seq[i]? with
    | none => none
    | some v => validate_structure_loop seq k (i + 1) (if v > 64 then gc + 1 else gc)

/-- The function `validate_structure(seq, n)`. -/
def validate_structure (seq : List Nat) (n : Nat) : Option Int :=
  match seq[0]? with
  | none => none
  | some v =>
    let x : Int := Int.ofNat v
    if ¬ (x * x ≥ 0) then some 0
    else
      match validate_structure_loop seq n 0 0 with
      | none => none
      | some gc => some (if gc > 0 then 1 else 1)

/-! ## Stage 1: transcription -/

/-- The `switch` of `transcribe`: the complement of one base, `'?'` for anything else. -/
def transcribe_base (c : Nat) : Nat :=
  if c = 'A'.toNat then 'U'.toNat
  else if c = 'T'.toNat then 'A'.toNat
  else if c = 'C'.toNat then 'G'.toNat
  else if c = 'G'.toNat then 'C'.toNat
  else '?'.toNat

/-- The loop of `transcribe`: `k` iterations left, counter `i`. -/
def transcribe_loop (dna : List Nat) : Nat → Nat → List Nat → Option (List Nat)
  | 0, _, mrna => some mrna
  | k + 1, i, mrna =>
    match dna[i]? with
    | none => none
    | some c =>
      match store mrna i (transcribe_base c) with
      | none => none
      | some mrna1 => transcribe_loop dna k (i + 1) mrna1

/-- The function `transcribe(dna, mrna, n_bases)`: the buffer `mrna` after the call. -/
def transcribe (dna : List Nat) (mrna : List Nat) (n_bases : Nat) : Option (List Nat) :=
  match transcribe_loop dna n_bases 0 mrna with
  | none => none
  | some mrna1 => store mrna1 n_bases 0

/-! ## Stage 2: codon reordering -/

/-- The loop of `reorder_codons`, reading the permutation table `perm`. -/
def reorder_codons_loop (perm : List Int) (mrna_in : List Nat) :
    Nat → Nat → List Nat → Option (List Nat)
  | 0, _, mrna_out => some mrna_out
  | k + 1, i, mrna_out =>
    match perm[i]? with
    | none => none
    | some src =>
      match load mrna_in (src * 3 + 0) with
      | none => none
      | some c0 =>
        match store mrna_out (i * 3 + 0) c0 with
        | none => none
        | some out0 =>
          match load mrna_in (src * 3 + 1) with
          | none => none
          | some c1 =>
            match store out0 (i * 3 + 1) c1 with
            | none => none
            | some out1 =>
              match load mrna_in (src * 3 + 2) with
              | none => none
              | some c2 =>
                match store out1 (i * 3 + 2) c2 with
                | none => none
                | some out2 => reorder_codons_loop perm mrna_in k (i + 1) out2

/-- The function `reorder_codons` with the permutation table as a parameter. -/
def reorder_codons_with (perm : List Int) (mrna_in : List Nat) (mrna_out : List Nat)
    (n_cod : Nat) : Option (List Nat) :=
  match reorder_codons_loop perm mrna_in n_cod 0 mrna_out with
  | none => none
  | some out => store out (n_cod * 3) 0

/-- The function `reorder_codons(mrna_in, mrna_out, n_cod)`, which reads the global `PERM`. -/
def reorder_codons (mrna_in : List Nat) (mrna_out : List Nat) (n_cod : Nat) :
    Option (List Nat) :=
  reorder_codons_with PERM mrna_in mrna_out n_cod

/-! ## Stage 3: translation -/

/-- The loop of `translate_codon` over the table: `k` entries left, counter `i`. -/
def translate_codon_loop (codon : List Nat) : Nat → Nat → Option Nat
  | 0, _ => some ('?'.toNat % 256)
  | k + 1, i =>
    match CODON_TABLE_KEYS[i]? with
    | none => none
    | some key =>
      match strncmp codon key 3 with
      | none => none
      | some r =>
        if r = 0 then CODON_TABLE_VALS[i]?
        else translate_codon_loop codon k (i + 1)

/-- The function `translate_codon(codon)`; `codon` points into a buffer. -/
def translate_codon (codon : List Nat) : Option Nat :=
  translate_codon_loop codon 31 0

/-- The loop of `translate`. -/
def translate_loop (mrna : List Nat) : Nat → Nat → List Nat → Option (List Nat)
  | 0, _, aa_seq => some aa_seq
  | k + 1, i, aa_seq =>
    match translate_codon (mrna.drop (i * 3)) with
    | none => none
    | some v =>
      match store aa_seq i v with
      | none => none
      | some aa1 => translate_loop mrna k (i + 1) aa1

/-- The function `translate(mrna, aa_seq, n_cod)`: the buffer `aa_seq` after the call. -/
def translate (mrna : List Nat) (aa_seq : List Nat) (n_cod : Nat) : Option (List Nat) :=
  translate_loop mrna n_cod 0 aa_seq

/-! ## Stage 4: folding -/

/-- The mask `(uint8_t)((i * 0x0B + 0x1F) & 0x7F)` of `fold`, in 32-bit `int` arithmetic. -/
def fold_mask (i : Nat) : Nat :=
  (((i * 0x0B + 0x1F) % 2 ^ 32) &&& 0x7F) % 256

/-- The loop of `fold`. -/
def fold_loop (aa_seq : List Nat) : Nat → Nat → List Nat → Option (List Nat)
  | 0, _, folded => some folded
  | k + 1, i, folded =>
    match aa_seq[i]? with
    | none => none
    | some v =>
      match store folded i ((v ^^^ fold_mask i) % 256) with
      | none => none
      | some folded1 => fold_loop aa_seq k (i + 1) folded1

/-- The function `fold(aa_seq, folded, n)`: the buffer `folded` after the call. -/
def fold (aa_seq : List Nat) (folded : List Nat) (n : Nat) : Option (List Nat) :=
  fold_loop aa_seq n 0 folded

/-! ## Main -/

/-- What the comparison at the end of `main` reports: `SEQUENCE VALID`, or a mismatch together
with the indices printed after `Position of first deviation:`. -/
inductive Verdict where
  | Match : Verdict
  | Mismatch : List Nat → Verdict
  deriving DecidableEq

/-- The loop of `main` that prints the first deviating position and breaks. -/
def first_deviation_loop (folded target : List Nat) : Nat → Nat → Option (List Nat)
  | 0, _ => some []
  | k + 1, i =>
    match folded[i]?, target[i]? with
    | some x, some y =>
      if x ≠ y then some [i]
      else first_deviation_loop folded target k (i + 1)
    | _, _ => none

/-- The comparison of `main`: `memcmp` over `n` bytes, then the search for the first deviation. -/
def main_compare (folded target : List Nat) (n : Nat) : Option Verdict :=
  match memcmp folded target n with
  | none => none
  | some r =>
    if r = 0 then some Verdict.Match
    else
      match first_deviation_loop folded target n 0 with
      | none => none
      | some printed => some (Verdict.Mismatch printed)

/-- The four stages of `main` up to `fold`, on a template `dna`, a permutation table `perm` and
the four local buffers of `main` (whose initial content is indeterminate in C): the buffer
`folded` after `fold`, or `none` inside for the early `return 1`. -/
def pipeline_on (dna : List Nat) (perm : List Int)
    (mrna0 mrna_reordered0 aa_seq0 folded0 : List Nat) : Option (Option (List Nat)) :=
  match transcribe dna mrna0 N_BASES with
  | none => none
  | some mrna =>
    match analyse_codon_frequency mrna N_CODONS with
    | none => none
    | some _ =>
      match reorder_codons_with perm mrna mrna_reordered0 N_CODONS with
      | none => none
      | some mrna_reordered =>
        match translate mrna_reordered aa_seq0 N_CODONS with
        | none => none
        | some aa_seq =>
          match validate_structure aa_seq N_CODONS with
          | none => none
          | some ok =>
            if ok = 0 then some none
            else
              match fold aa_seq folded0 N_CODONS with
              | none => none
              | some folded => some (some folded)

/-- The pipeline of `main` on the shipped template, with the permutation table as a parameter
and the local buffers `char[N_BASES + 1]`, `uint8_t[N_CODONS]` zero-filled. -/
def pipeline_with (perm : List Int) : Option (Option (List Nat)) :=
  pipeline_on DNA_TEMPLATE perm (List.replicate (N_BASES + 1) 0) (List.replicate (N_BASES + 1) 0)
    (List.replicate N_CODONS 0) (List.replicate N_CODONS 0)

/-- The body of `main` on a template, a permutation table, a target and the four local buffers:
the exit code and the verdict printed, if any. -/
def main_on (dna : List Nat) (perm : List Int) (target : List Nat)
    (mrna0 mrna_reordered0 aa_seq0 folded0 : List Nat) : Option (Int × Option Verdict) :=
  match pipeline_on dna perm mrna0 mrna_reordered0 aa_seq0 folded0 with
  | none => none
  | some none => some (1, none)
  | some (some folded) =>
    match main_compare folded target N_CODONS with
    | none => none
    | some v => some (0, some v)

/-- The function `main` with the permutation table as a parameter, on the shipped template and
target, the local buffers zero-filled. -/
def main_with (perm : List Int) : Option (Int × Option Verdict) :=
  main_on DNA_TEMPLATE perm TARGET (List.replicate (N_BASES + 1) 0)
    (List.replicate (N_BASES + 1) 0) (List.replicate N_CODONS 0) (List.replicate N_CODONS 0)

/-- The function `main` of the program. -/
def main : Option (Int × Option Verdict) :=
  main_with PERM

/-- The permutation table with entries 4 and 11 restored to the identity. -/
def PERM_FIXED : List Int :=
  (PERM.set 4 4).set 11 11

/-! ## Auxiliary definitions for the statements -/

/-- The bytes of a text, without terminator. -/
def ascii (s : String) : List Nat :=
  s.toList.map Char.toNat

/-- The three-symbol block `i` of a buffer. -/
def codon_at (buf : List Nat) (i : Nat) : List Nat :=
  (buf.drop (i * 3)).take 3

/-- The first `n` three-symbol blocks of a buffer, in order. -/
def codons (buf : List Nat) (n : Nat) : List (List Nat) :=
  (List.range n).map (codon_at buf)

/-- A loop `for (i = 0; i < n; i++) buf[i] = f(i)`, the common shape of the loops of
`transcribe`, `translate` and `fold`. -/
def store_loop (f : Nat → Option Nat) : Nat → Nat → List Nat → Option (List Nat)
  | 0, _, buf => some buf
  | k + 1, i, buf =>
    match f i with
    | none => none
    | some v =>
      match store buf i v with
      | none => none
      | some buf1 => store_loop f k (i + 1) buf1

/-- The buffer `mrna` of `main` after `transcribe`, as text. -/
def MRNA_SHIPPED : List Nat :=
  cstr "CUACCUCCGUAGUGUUGAUCUUUAUUCCAACUCCCGCACCGUUGGUACCGAUAAUCCUUUCCUCACCUGCAGUCGCCACCCCGAUUGUGCUAUCUUUCAUGUCGCCAU"

/-- The buffer `mrna_reordered` of `main` after `reorder_codons` with the shipped `PERM`. -/
def MRNA_REORDERED_SHIPPED : List Nat :=
  cstr "CUACCUCCGUAGCCGUGAUCUUUAUUCCAACUCUGUCACCGUUGGUACCGAUAAUCCUUUCCUCACCUGCAGUCGCCACCCCGAUUGUGCUAUCUUUCAUGUCGCCAU"

/-- The buffer `aa_seq` of `main` after `translate`, with the shipped `PERM`. -/
def AA_SHIPPED : List Nat :=
  [ 0x4c, 0x4f, 0x56, 0x35, 0x56, 0x3f, 0x0f, 0x09, 0x03, 0x71, 0x48, 0x39,
    0x6a, 0x7a, 0x42, 0x27, 0x7c, 0x34, 0x11, 0x02, 0x4f, 0x6a, 0x4e, 0x78,
    0x17, 0x55, 0x50, 0x7c, 0x0c, 0x3c, 0x1b, 0x44, 0x14, 0x39, 0x7b, 0x5d ]

/-- The buffer `aa_seq` after `translate` when the corrected table is used. -/
def AA_FIXED : List Nat :=
  [ 0x4c, 0x4f, 0x56, 0x35, 0x39, 0x3f, 0x0f, 0x09, 0x03, 0x71, 0x48, 0x56,
    0x6a, 0x7a, 0x42, 0x27, 0x7c, 0x34, 0x11, 0x02, 0x4f, 0x6a, 0x4e, 0x78,
    0x17, 0x55, 0x50, 0x7c, 0x0c, 0x3c, 0x1b, 0x44, 0x14, 0x39, 0x7b, 0x5d ]

/-- The buffer `folded` of `main` after `fold`, with the shipped `PERM`. -/
def FOLDED_SHIPPED : List Nat :=
  [ 0x53, 0x65, 0x63, 0x75, 0x1d, 0x69, 0x6e, 0x65, 0x74, 0x73, 0x45, 0x21,
    0x49, 0x54, 0x7b, 0x63, 0x33, 0x6e, 0x74, 0x72, 0x34, 0x6c, 0x5f, 0x64,
    0x30, 0x67, 0x6d, 0x34, 0x5f, 0x62, 0x72, 0x30, 0x6b, 0x33, 0x6e, 0x7d ]


/-! ## Buffers: reads and writes -/

theorem store_of_lt {buf : List Nat} {i : Nat} (v : Nat) (h : i < buf.length) :
    store buf i v = some (buf.set i v) := by
  simp [store, h]

/-- A loop of in-bounds stores succeeds, keeps the length of the buffer, writes `f j` at every
index `j` it visits and leaves the other bytes alone. -/
theorem store_loop_spec (f : Nat → Option Nat) :
    ∀ (k i : Nat) (buf : List Nat), i + k ≤ buf.length →
      (∀ j, i ≤ j → j < i + k → (f j).isSome = true) →
      ∃ out, store_loop f k i buf = some out ∧ out.length = buf.length ∧
        ∀ j, out[j]? = if i ≤ j ∧ j < i + k then f j else buf[j]? := by
  intro k
  induction k with
  | zero =>
    intro i buf _ _
    refine ⟨buf, rfl, rfl, fun j => ?_⟩
    have : ¬ (i ≤ j ∧ j < i + 0) := by omega
    rw [if_neg this]
  | succ k ih =>
    intro i buf hlen hf
    obtain ⟨v, hv⟩ := Option.isSome_iff_exists.mp (hf i (Nat.le_refl i) (by omega))
    have hi : i < buf.length := by omega
    obtain ⟨out, hout, hl, hget⟩ := ih (i + 1) (buf.set i v)
      (by rw [List.length_set]; omega) (fun j h1 h2 => hf j (by omega) (by omega))
    refine ⟨out, ?_, ?_, fun j => ?_⟩
    · simp only [store_loop, hv, store_of_lt v hi, hout]
    · rw [hl, List.length_set]
    · rw [hget j]
      by_cases hj : i = j
      · subst hj
        have h1 : ¬ (i + 1 ≤ i ∧ i < i + 1 + k) := by omega
        have h2 : i ≤ i ∧ i < i + (k + 1) := by omega
        rw [if_neg h1, if_pos h2, List.getElem?_set, if_pos rfl, if_pos hi, hv]
      · rw [List.getElem?_set_ne hj]
        by_cases hr : i + 1 ≤ j ∧ j < i + 1 + k
        · rw [if_pos hr, if_pos (by omega)]
        · rw [if_neg hr, if_neg (by omega)]

theorem transcribe_loop_eq (dna : List Nat) :
    ∀ (k i : Nat) (mrna : List Nat),
      transcribe_loop dna k i mrna =
        store_loop (fun j => (dna[j]?).map transcribe_base) k i mrna := by
  intro k
  induction k with
  | zero => intro i mrna; rfl
  | succ k ih =>
    intro i mrna
    simp only [transcribe_loop, store_loop]
    cases dna[i]? with
    | none => rfl
    | some c =>
      simp only [Option.map_some']
      cases store mrna i (transcribe_base c) with
      | none => rfl
      | some m1 => exact ih (i + 1) m1

theorem translate_loop_eq (mrna : List Nat) :
    ∀ (k i : Nat) (aa_seq : List Nat),
      translate_loop mrna k i aa_seq =
        store_loop (fun j => translate_codon (mrna.drop (j * 3))) k i aa_seq := by
  intro k
  induction k with
  | zero => intro i aa_seq; rfl
  | succ k ih =>
    intro i aa_seq
    simp only [translate_loop, store_loop]
    cases translate_codon (mrna.drop (i * 3)) with
    | none => rfl
    | some v =>
      dsimp only
      cases store aa_seq i v with
      | none => rfl
      | some a1 => exact ih (i + 1) a1

theorem fold_loop_eq (aa_seq : List Nat) :
    ∀ (k i : Nat) (folded : List Nat),
      fold_loop aa_seq k i folded =
        store_loop (fun j => (aa_seq[j]?).map (fun v => (v ^^^ fold_mask j) % 256)) k i folded := by
  intro k
  induction k with
  | zero => intro i folded; rfl
  | succ k ih =>
    intro i folded
    simp only [fold_loop, store_loop]
    cases aa_seq[i]? with
    | none => rfl
    | some v =>
      simp only [Option.map_some']
      cases store folded i ((v ^^^ fold_mask i) % 256) with
      | none => rfl
      | some f1 => exact ih (i + 1) f1

/-- The code's mask is the spec's mask, whatever the index: the 32-bit wrap of the `int`
product, the `& 0x7F` and the conversion to a byte together keep the low seven bits. -/
theorem fold_mask_eq (i : Nat) : fold_mask i = (i * 11 + 31) % 128 := by
  unfold fold_mask
  have h := Nat.and_pow_two_sub_one_eq_mod ((i * 11 + 31) % 2 ^ 32) 7
  norm_num at h ⊢
  rw [h]
  omega

theorem fold_mask_lt (i : Nat) : fold_mask i < 128 := by
  rw [fold_mask_eq]; omega

theorem xor_mask_lt {v : Nat} (i : Nat) (hv : v < 256) : v ^^^ fold_mask i < 256 :=
  Nat.xor_lt_two_pow (n := 8) hv (by have := fold_mask_lt i; omega)

/-- The buffer written by `fold`, byte by byte. -/
theorem fold_get (aa_seq folded : List Nat) (n : Nat)
    (ha : n ≤ aa_seq.length) (hf : n ≤ folded.length) :
    ∃ out, fold aa_seq folded n = some out ∧ out.length = folded.length ∧
      ∀ j, out[j]? =
        if j < n then (aa_seq[j]?).map (fun v => (v ^^^ fold_mask j) % 256) else folded[j]? := by
  obtain ⟨out, h1, h2, h3⟩ := store_loop_spec
    (fun j => (aa_seq[j]?).map (fun v => (v ^^^ fold_mask j) % 256)) n 0 folded (by omega)
    (fun j _ hj => by
      have : j < aa_seq.length := by omega
      simp [List.getElem?_eq_getElem this])
  refine ⟨out, ?_, h2, fun j => ?_⟩
  · rw [fold, fold_loop_eq, h1]
  · rw [h3 j]
    simp only [Nat.zero_le, true_and, Nat.zero_add]

/-! ## The comparison of `main` -/

/-- On buffers with at least `n` bytes `memcmp` returns, and returns 0 exactly when the first
`n` bytes agree. -/
theorem memcmp_spec :
    ∀ (n : Nat) (a b : List Nat), n ≤ a.length → n ≤ b.length →
      ∃ r, memcmp a b n = some r ∧ (r = 0 ↔ ∀ i, i < n → a[i]? = b[i]?) := by
  intro n
  induction n with
  | zero =>
    intro a b _ _
    exact ⟨0, rfl, by simp⟩
  | succ n ih =>
    intro a b ha hb
    match a, b, ha, hb with
    | [], _, ha, _ => simp at ha
    | _ :: _, [], _, hb => simp at hb
    | x :: a1, y :: b1, ha, hb =>
      simp only [List.length_cons, Nat.add_le_add_iff_right] at ha hb
      by_cases hxy : x = y
      · subst hxy
        obtain ⟨r, hr, hiff⟩ := ih a1 b1 ha hb
        refine ⟨r, ?_, ?_⟩
        · simp [memcmp, hr]
        · rw [hiff]
          constructor
          · intro h i hi
            cases i with
            | zero => simp
            | succ i => simpa using h i (by omega)
          · intro h i hi
            simpa using h (i + 1) (by omega)
      · refine ⟨(x : Int) - (y : Int), ?_, ?_⟩
        · simp [memcmp, hxy]
        · constructor
          · intro h
            exact absurd (by omega) hxy
          · intro h
            have := h 0 (by omega)
            simp at this
            exact absurd this hxy

/-- The search loop of `main` from index `i` over `k` positions: it prints nothing when the
positions all agree, and otherwise prints exactly the first position that differs. -/
theorem first_deviation_loop_spec (folded target : List Nat) :
    ∀ (k i : Nat), i + k ≤ folded.length → i + k ≤ target.length →
      ((∀ j, i ≤ j → j < i + k → folded[j]? = target[j]?) →
        first_deviation_loop folded target k i = some []) ∧
      ((¬ ∀ j, i ≤ j → j < i + k → folded[j]? = target[j]?) →
        ∃ m, i ≤ m ∧ m < i + k ∧ folded[m]? ≠ target[m]? ∧
          (∀ j, i ≤ j → j < m → folded[j]? = target[j]?) ∧
          first_deviation_loop folded target k i = some [m]) := by
  intro k
  induction k with
  | zero =>
    intro i _ _
    refine ⟨fun _ => rfl, fun h => ?_⟩
    exact absurd (fun j h1 h2 => by omega) h
  | succ k ih =>
    intro i hf ht
    have hif : i < folded.length := by omega
    have hit : i < target.length := by omega
    obtain ⟨ih1, ih2⟩ := ih (i + 1) (by omega) (by omega)
    have hstep : first_deviation_loop folded target (k + 1) i =
        if folded[i] ≠ target[i] then some [i]
        else first_deviation_loop folded target k (i + 1) := by
      simp only [first_deviation_loop, List.getElem?_eq_getElem hif,
        List.getElem?_eq_getElem hit]
    by_cases hx : folded[i] = target[i]
    · have hxi : folded[i]? = target[i]? := by
        rw [List.getElem?_eq_getElem hif, List.getElem?_eq_getElem hit, hx]
      rw [hstep, if_neg (not_not.mpr hx)]
      constructor
      · intro hall
        exact ih1 (fun j h1 h2 => hall j (by omega) (by omega))
      · intro hnot
        have hnot2 : ¬ ∀ j, i + 1 ≤ j → j < i + 1 + k → folded[j]? = target[j]? := by
          intro hall
          apply hnot
          intro j h1 h2
          by_cases hj : j = i
          · subst hj; exact hxi
          · exact hall j (by omega) (by omega)
        obtain ⟨m, hm1, hm2, hm3, hm4, hm5⟩ := ih2 hnot2
        refine ⟨m, by omega, by omega, hm3, fun j h1 h2 => ?_, hm5⟩
        by_cases hj : j = i
        · subst hj; exact hxi
        · exact hm4 j (by omega) h2
    · have hxi : folded[i]? ≠ target[i]? := by
        rw [List.getElem?_eq_getElem hif, List.getElem?_eq_getElem hit]
        intro h
        exact hx (Option.some.inj h)
      rw [hstep, if_pos hx]
      constructor
      · intro hall
        exact absurd (hall i (Nat.le_refl i) (by omega)) hxi
      · intro _
        exact ⟨i, Nat.le_refl i, by omega, hxi, fun j h1 h2 => by omega, rfl⟩

/-- The comparison of `main` over `n` bytes present in both buffers. -/
theorem main_compare_get (folded target : List Nat) (n : Nat)
    (hf : n ≤ folded.length) (ht : n ≤ target.length) :
    ((∀ i, i < n → folded[i]? = target[i]?) →
      main_compare folded target n = some Verdict.Match) ∧
    ((¬ ∀ i, i < n → folded[i]? = target[i]?) →
      ∃ m, m < n ∧ folded[m]? ≠ target[m]? ∧ (∀ j, j < m → folded[j]? = target[j]?) ∧
        main_compare folded target n = some (Verdict.Mismatch [m])) := by
  obtain ⟨r, hr, hiff⟩ := memcmp_spec n folded target hf ht
  obtain ⟨_, h2⟩ := first_deviation_loop_spec folded target n 0 (by omega) (by omega)
  constructor
  · intro hall
    simp only [main_compare, hr, if_pos (hiff.mpr hall)]
  · intro hnot
    have hr0 : r ≠ 0 := fun h => hnot (hiff.mp h)
    obtain ⟨m, _, hm2, hm3, hm4, hm5⟩ := h2 (fun hall => hnot (fun i hi =>
      hall i (Nat.zero_le i) (by omega)))
    refine ⟨m, by omega, hm3, fun j hj => hm4 j (Nat.zero_le j) hj, ?_⟩
    simp only [main_compare, hr, if_neg hr0, hm5]

/-- Claim C4: on two 36-byte sequences the comparison of `main` reports `Match` exactly when the
sequences agree at every index below 36; otherwise it reports a mismatch and prints exactly one
index, the smallest at which they differ. -/
theorem main_compare_spec (folded target : List Nat)
    (hf : folded.length = 36) (ht : target.length = 36) :
    (main_compare folded target N_CODONS = some Verdict.Match ↔
      ∀ i, i < 36 → folded[i]? = target[i]?) ∧
    ((¬ ∀ i, i < 36 → folded[i]? = target[i]?) →
      ∃ m, m < 36 ∧ folded[m]? ≠ target[m]? ∧ (∀ j, j < m → folded[j]? = target[j]?) ∧
        main_compare folded target N_CODONS = some (Verdict.Mismatch [m])) := by
  have hN : N_CODONS = 36 := rfl
  rw [hN]
  obtain ⟨h1, h2⟩ := main_compare_get folded target 36 (by omega) (by omega)
  refine ⟨⟨fun hm => ?_, h1⟩, h2⟩
  by_contra hnot
  obtain ⟨m, _, _, _, hm2⟩ := h2 hnot
  rw [hm2] at hm
  cases hm

/-- The buffer written by `transcribe`, byte by byte. -/
theorem transcribe_get (dna mrna : List Nat) (n_bases : Nat)
    (hd : n_bases ≤ dna.length) (hm : n_bases < mrna.length) :
    ∃ out, transcribe dna mrna n_bases = some out ∧ out.length = mrna.length ∧
      ∀ j, out[j]? =
        if j < n_bases then (dna[j]?).map transcribe_base
        else if j = n_bases then some 0 else mrna[j]? := by
  obtain ⟨m1, h1, h2, h3⟩ := store_loop_spec
    (fun j => (dna[j]?).map transcribe_base) n_bases 0 mrna (by omega)
    (fun j _ hj => by
      have : j < dna.length := by omega
      simp [List.getElem?_eq_getElem this])
  have hlt : n_bases < m1.length := by omega
  refine ⟨m1.set n_bases 0, ?_, ?_, fun j => ?_⟩
  · simp only [transcribe, transcribe_loop_eq, h1, store_of_lt 0 hlt]
  · rw [List.length_set, h2]
  · rw [List.getElem?_set]
    by_cases hj : n_bases = j
    · subst hj
      rw [if_pos rfl, if_pos hlt, if_neg (Nat.lt_irrefl _), if_pos rfl]
    · rw [if_neg hj, h3 j]
      simp only [Nat.zero_le, true_and, Nat.zero_add]
      by_cases hlt2 : j < n_bases
      · rw [if_pos hlt2, if_pos hlt2]
      · rw [if_neg hlt2, if_neg hlt2, if_neg (fun h => hj h.symm)]

theorem ascii_ATCG : ascii "ATCG" = [65, 84, 67, 71] := by decide

theorem ascii_UAGC : ascii "UAGC" = [85, 65, 71, 67] := by decide

theorem transcribe_base_eq (c : Nat) :
    transcribe_base c =
      if c = 65 then 85 else if c = 84 then 65 else if c = 67 then 71
      else if c = 71 then 67 else 63 := by
  have hA : 'A'.toNat = 65 := by decide
  have hT : 'T'.toNat = 84 := by decide
  have hC : 'C'.toNat = 67 := by decide
  have hG : 'G'.toNat = 71 := by decide
  have hU : 'U'.toNat = 85 := by decide
  have hQ : '?'.toNat = 63 := by decide
  simp only [transcribe_base, hA, hT, hC, hG, hU, hQ]

theorem transcribe_base_ne_zero (c : Nat) : transcribe_base c ≠ 0 := by
  rw [transcribe_base_eq]
  split_ifs <;> decide

/-- Claim C5: on a source of at least `n_bases` symbols and an output buffer with room for the
terminator, `transcribe` succeeds and writes exactly `n_bases` non-NUL symbols followed by the
NUL; symbol `i` is `U`, `A`, `G`, `C` for the source symbols `A`, `T`, `C`, `G` and `?` for any
other; a source over `ATCG` gives an output over `UAGC`. -/
theorem transcribe_spec (dna mrna : List Nat) (n_bases : Nat)
    (hd : n_bases ≤ dna.length) (hm : n_bases < mrna.length) :
    ∃ out, transcribe dna mrna n_bases = some out ∧ out.length = mrna.length ∧
      (out.take n_bases).length = n_bases ∧ (∀ o ∈ out.take n_bases, o ≠ 0) ∧
      out[n_bases]? = some 0 ∧
      (∀ i, i < n_bases → ∃ c o, dna[i]? = some c ∧ out[i]? = some o ∧
        (c = 'A'.toNat → o = 'U'.toNat) ∧ (c = 'T'.toNat → o = 'A'.toNat) ∧
        (c = 'C'.toNat → o = 'G'.toNat) ∧ (c = 'G'.toNat → o = 'C'.toNat) ∧
        (c ≠ 'A'.toNat → c ≠ 'T'.toNat → c ≠ 'C'.toNat → c ≠ 'G'.toNat → o = '?'.toNat)) ∧
      ((∀ i c, i < n_bases → dna[i]? = some c → c ∈ ascii "ATCG") →
        ∀ i o, i < n_bases → out[i]? = some o → o ∈ ascii "UAGC") := by
  obtain ⟨out, h1, h2, h3⟩ := transcribe_get dna mrna n_bases hd hm
  have hA : 'A'.toNat = 65 := by decide
  have hT : 'T'.toNat = 84 := by decide
  have hC : 'C'.toNat = 67 := by decide
  have hG : 'G'.toNat = 71 := by decide
  have hU : 'U'.toNat = 85 := by decide
  have hQ : '?'.toNat = 63 := by decide
  have key : ∀ i, i < n_bases → ∃ c, dna[i]? = some c ∧ out[i]? = some (transcribe_base c) := by
    intro i hi
    have hlt : i < dna.length := by omega
    refine ⟨dna[i], List.getElem?_eq_getElem hlt, ?_⟩
    rw [h3 i, if_pos hi, List.getElem?_eq_getElem hlt, Option.map_some']
  refine ⟨out, h1, h2, ?_, ?_, ?_, ?_, ?_⟩
  · rw [List.length_take]; omega
  · intro o ho
    obtain ⟨i, hi, hio⟩ := List.getElem_of_mem ho
    rw [List.length_take] at hi
    have hin : i < n_bases := by omega
    obtain ⟨c, _, hc⟩ := key i hin
    have h4 : (out.take n_bases)[i]? = some o := by
      rw [List.getElem?_eq_getElem (by rw [List.length_take]; omega), hio]
    rw [List.getElem?_take_of_lt hin, hc] at h4
    cases h4
    exact transcribe_base_ne_zero c
  · rw [h3 n_bases, if_neg (Nat.lt_irrefl _), if_pos rfl]
  · intro i hi
    obtain ⟨c, hc, ho⟩ := key i hi
    refine ⟨c, transcribe_base c, hc, ho, ?_⟩
    rw [transcribe_base_eq, hA, hT, hC, hG, hU, hQ]
    refine ⟨?_, ?_, ?_, ?_, ?_⟩
    · intro h; subst h; rfl
    · intro h; subst h; rfl
    · intro h; subst h; rfl
    · intro h; subst h; rfl
    · intro h1 h2 h3 h4
      rw [if_neg h1, if_neg h2, if_neg h3, if_neg h4]
  · intro hsrc i o hi ho
    obtain ⟨c, hc, ho2⟩ := key i hi
    rw [ho2] at ho
    cases ho
    have hmem := hsrc i c hi hc
    rw [ascii_ATCG] at hmem
    rw [ascii_UAGC, transcribe_base_eq]
    simp only [List.mem_cons, List.mem_singleton, List.mem_nil_iff, or_false] at hmem ⊢
    rcases hmem with h | h | h | h <;> subst h <;> simp

/-- Claim C8: on a byte sequence with at least `n` bytes and an output buffer of length `n`,
`fold` succeeds, the output has length `n` and byte `i` is `aa_seq[i]` xored with
`(i * 11 + 31) mod 128`; the code's mask equals that value at every index. -/
theorem fold_spec (aa_seq folded : List Nat) (n : Nat)
    (hb : ∀ v ∈ aa_seq, v < 256) (ha : n ≤ aa_seq.length) (hf : folded.length = n) :
    (∀ i, fold_mask i = (i * 11 + 31) % 128) ∧
    ∃ out, fold aa_seq folded n = some out ∧ out.length = n ∧
      ∀ i, i < n → ∃ v, aa_seq[i]? = some v ∧ out[i]? = some (v ^^^ ((i * 11 + 31) % 128)) := by
  refine ⟨fold_mask_eq, ?_⟩
  obtain ⟨out, h1, h2, h3⟩ := fold_get aa_seq folded n ha (by omega)
  refine ⟨out, h1, by omega, fun i hi => ?_⟩
  have hlt : i < aa_seq.length := by omega
  refine ⟨aa_seq[i], List.getElem?_eq_getElem hlt, ?_⟩
  rw [h3 i, if_pos hi, List.getElem?_eq_getElem hlt, Option.map_some',
    Nat.mod_eq_of_lt (xor_mask_lt i (hb _ (List.getElem_mem hlt))), fold_mask_eq]

/-- Claim C9: folding a byte sequence and folding the result again, over the same length,
gives back the original sequence. -/
theorem fold_fold (x b1 b2 : List Nat) (hb : ∀ v ∈ x, v < 256)
    (h1 : b1.length = x.length) (h2 : b2.length = x.length) :
    ∃ y, fold x b1 x.length = some y ∧ fold y b2 x.length = some x := by
  obtain ⟨y, hy, hyl, hyg⟩ := fold_get x b1 x.length (Nat.le_refl _) (by omega)
  obtain ⟨z, hz, hzl, hzg⟩ := fold_get y b2 x.length (by omega) (by omega)
  refine ⟨y, hy, ?_⟩
  rw [hz]
  congr 1
  apply List.ext_getElem?
  intro j
  rw [hzg j, hyg j]
  by_cases hj : j < x.length
  · rw [if_pos hj, if_pos hj, List.getElem?_eq_getElem hj, Option.map_some', Option.map_some']
    have hv : x[j] < 256 := hb _ (List.getElem_mem hj)
    rw [Nat.mod_eq_of_lt (xor_mask_lt j hv), Nat.xor_cancel_right, Nat.mod_eq_of_lt hv]
  · rw [if_neg hj, List.getElem?_eq_none (by omega), List.getElem?_eq_none (by omega)]

/-! ## Codon reordering -/

theorem load_cast (buf : List Nat) (n : Nat) : load buf (n : Int) = buf[n]? := by
  simp [load]

theorem load_codon (buf : List Nat) (p t : Nat) :
    load buf ((p : Int) * 3 + (t : Int)) = buf[p * 3 + t]? := by
  have h : ((p : Int) * 3 + (t : Int)) = ((p * 3 + t : Nat) : Int) := by push_cast; ring
  rw [h, load_cast]

/-- One block of a buffer from its three symbols. -/
theorem codon_at_eq_of_get {a b : List Nat} {i p : Nat}
    (h : ∀ t, t < 3 → a[i * 3 + t]? = b[p * 3 + t]?) : codon_at a i = codon_at b p := by
  apply List.ext_getElem?
  intro t
  simp only [codon_at, List.getElem?_take, List.getElem?_drop]
  by_cases ht : t < 3
  · rw [if_pos ht, if_pos ht, h t ht]
  · rw [if_neg ht, if_neg ht]

theorem codon_at_length {a : List Nat} {i : Nat} (h : i * 3 + 3 ≤ a.length) :
    (codon_at a i).length = 3 := by
  simp only [codon_at, List.length_take, List.length_drop]
  omega

/-- The loop of `reorder_codons` from block `i` over `k` blocks: when every table entry it reads
is the index of a block inside the input, it succeeds, writes block `perm[j]` of the input to
block `j` of the output and leaves the rest of the output buffer alone. -/
theorem reorder_codons_loop_spec (perm : List Int) (mrna_in : List Nat) :
    ∀ (k i : Nat) (out : List Nat), (i + k) * 3 ≤ out.length →
      (∀ j, i ≤ j → j < i + k →
        ∃ p : Nat, perm[j]? = some (p : Int) ∧ p * 3 + 2 < mrna_in.length) →
      ∃ res, reorder_codons_loop perm mrna_in k i out = some res ∧ res.length = out.length ∧
        (∀ j, j < i * 3 ∨ (i + k) * 3 ≤ j → res[j]? = out[j]?) ∧
        (∀ j p t, i ≤ j → j < i + k → perm[j]? = some ((p : Nat) : Int) → t < 3 →
          res[j * 3 + t]? = mrna_in[p * 3 + t]?) := by
  intro k
  induction k with
  | zero =>
    intro i out _ _
    exact ⟨out, rfl, rfl, fun _ _ => rfl, fun j p t h1 h2 => by omega⟩
  | succ k ih =>
    intro i out hlen hperm
    obtain ⟨p, hp, hpin⟩ := hperm i (Nat.le_refl i) (by omega)
    have h0 : p * 3 + 0 < mrna_in.length := by omega
    have h1 : p * 3 + 1 < mrna_in.length := by omega
    have h2 : p * 3 + 2 < mrna_in.length := by omega
    have l0 : load mrna_in ((p : Int) * 3 + 0) = some mrna_in[p * 3 + 0] := by
      have := load_codon mrna_in p 0
      rw [List.getElem?_eq_getElem h0] at this
      simpa using this
    have l1 : load mrna_in ((p : Int) * 3 + 1) = some mrna_in[p * 3 + 1] := by
      have := load_codon mrna_in p 1
      rw [List.getElem?_eq_getElem h1] at this
      simpa using this
    have l2 : load mrna_in ((p : Int) * 3 + 2) = some mrna_in[p * 3 + 2] := by
      have := load_codon mrna_in p 2
      rw [List.getElem?_eq_getElem h2] at this
      simpa using this
    have s0 : i * 3 + 0 < out.length := by omega
    have s1 : i * 3 + 1 < (out.set (i * 3 + 0) mrna_in[p * 3 + 0]).length := by
      rw [List.length_set]; omega
    have s2 : i * 3 + 2 <
        ((out.set (i * 3 + 0) mrna_in[p * 3 + 0]).set (i * 3 + 1) mrna_in[p * 3 + 1]).length := by
      rw [List.length_set, List.length_set]; omega
    obtain ⟨res, hres, hl, hkeep, hblk⟩ := ih (i + 1)
      (((out.set (i * 3 + 0) mrna_in[p * 3 + 0]).set (i * 3 + 1) mrna_in[p * 3 + 1]).set
        (i * 3 + 2) mrna_in[p * 3 + 2])
      (by rw [List.length_set, List.length_set, List.length_set]; omega)
      (fun j h1 h2 => hperm j (by omega) (by omega))
    refine ⟨res, ?_, ?_, ?_, ?_⟩
    · simp only [reorder_codons_loop, hp, l0, l1, l2, store_of_lt _ s0, store_of_lt _ s1,
        store_of_lt _ s2, hres]
    · rw [hl, List.length_set, List.length_set, List.length_set]
    · intro j hj
      rw [hkeep j (by omega), List.getElem?_set_ne (by omega), List.getElem?_set_ne (by omega),
        List.getElem?_set_ne (by omega)]
    · intro j q t hj1 hj2 hq ht
      by_cases hji : j = i
      · subst hji
        rw [hp] at hq
        have hqp : q = p := by
          have := Option.some.inj hq
          omega
        subst hqp
        rw [hkeep (j * 3 + t) (by omega)]
        have ht3 : t = 0 ∨ t = 1 ∨ t = 2 := by omega
        rcases ht3 with h | h | h
        · subst h
          rw [List.getElem?_set_ne (by omega), List.getElem?_set_ne (by omega),
            List.getElem?_set, if_pos rfl, if_pos s0, List.getElem?_eq_getElem h0]
        · subst h
          rw [List.getElem?_set_ne (by omega), List.getElem?_set, if_pos rfl, if_pos s1,
            List.getElem?_eq_getElem h1]
        · subst h
          rw [List.getElem?_set, if_pos rfl, if_pos s2, List.getElem?_eq_getElem h2]
      · exact hblk j q t (by omega) (by omega) hq ht

/-- The buffer written by `reorder_codons` for a table whose first `n_cod` entries are indices
of blocks inside the input. -/
theorem reorder_codons_with_get (perm : List Int) (mrna_in mrna_out : List Nat) (n_cod : Nat)
    (hout : n_cod * 3 < mrna_out.length)
    (hperm : ∀ j, j < n_cod →
      ∃ p : Nat, perm[j]? = some (p : Int) ∧ p * 3 + 2 < mrna_in.length) :
    ∃ out, reorder_codons_with perm mrna_in mrna_out n_cod = some out ∧
      out.length = mrna_out.length ∧ out[n_cod * 3]? = some 0 ∧
      (∀ j, n_cod * 3 < j → out[j]? = mrna_out[j]?) ∧
      (∀ j p t, j < n_cod → perm[j]? = some ((p : Nat) : Int) → t < 3 →
        out[j * 3 + t]? = mrna_in[p * 3 + t]?) := by
  obtain ⟨res, hres, hl, hkeep, hblk⟩ := reorder_codons_loop_spec perm mrna_in n_cod 0 mrna_out
    (by omega) (fun j _ hj => hperm j (by omega))
  have hlt : n_cod * 3 < res.length := by omega
  refine ⟨res.set (n_cod * 3) 0, ?_, ?_, ?_, ?_, ?_⟩
  · simp only [reorder_codons_with, hres, store_of_lt 0 hlt]
  · rw [List.length_set, hl]
  · rw [List.getElem?_set, if_pos rfl, if_pos hlt]
  · intro j hj
    rw [List.getElem?_set_ne (by omega), hkeep j (by omega)]
  · intro j p t hj hp ht
    rw [List.getElem?_set_ne (by omega)]
    exact hblk j p t (Nat.zero_le j) (by omega) hp ht

theorem PERM_nonneg : ∀ p ∈ PERM, 0 ≤ p := by decide

/-- Claim C6: for `n_cod ≤ 36`, an input of at least `3 * n_cod` symbols, an output buffer with
room for the terminator and table entries below `n_cod`, `reorder_codons` succeeds, keeps the
length of the output buffer, terminates the `3 * n_cod` symbols written with a NUL, and block
`i` of the output (symbols `3i`, `3i+1`, `3i+2`) is block `PERM[i]` of the input. -/
theorem reorder_codons_spec (mrna_in mrna_out : List Nat) (n_cod : Nat)
    (hn : n_cod ≤ 36) (hin : 3 * n_cod ≤ mrna_in.length) (hout : 3 * n_cod < mrna_out.length)
    (hperm : ∀ i p, i < n_cod → PERM[i]? = some p → p < (n_cod : Int)) :
    ∃ out, reorder_codons mrna_in mrna_out n_cod = some out ∧
      out.length = mrna_out.length ∧ out[3 * n_cod]? = some 0 ∧
      ∀ i, i < n_cod → ∃ p : Nat, PERM[i]? = some (p : Int) ∧ p < n_cod ∧
        out[3 * i]? = mrna_in[3 * p]? ∧ out[3 * i + 1]? = mrna_in[3 * p + 1]? ∧
        out[3 * i + 2]? = mrna_in[3 * p + 2]? ∧
        codon_at out i = codon_at mrna_in p ∧ (codon_at out i).length = 3 := by
  have hentry : ∀ i, i < n_cod → ∃ p : Nat, PERM[i]? = some (p : Int) ∧ p < n_cod := by
    intro i hi
    have hlt : i < PERM.length := by
      have : PERM.length = 36 := by decide
      omega
    have h0 := PERM_nonneg PERM[i] (List.getElem_mem hlt)
    have h1 := hperm i PERM[i] hi (List.getElem?_eq_getElem hlt)
    refine ⟨PERM[i].toNat, ?_, by omega⟩
    rw [List.getElem?_eq_getElem hlt, Int.toNat_of_nonneg h0]
  obtain ⟨out, h1, h2, h3, _, h5⟩ := reorder_codons_with_get PERM mrna_in mrna_out n_cod
    (by omega) (fun j hj => by
      obtain ⟨p, hp, hpn⟩ := hentry j hj
      exact ⟨p, hp, by omega⟩)
  refine ⟨out, h1, h2, by rw [Nat.mul_comm]; exact h3, fun i hi => ?_⟩
  obtain ⟨p, hp, hpn⟩ := hentry i hi
  have hget := h5 i p
  have e0 := hget 0 hi hp (by omega)
  have e1 := hget 1 hi hp (by omega)
  have e2 := hget 2 hi hp (by omega)
  have hcod : codon_at out i = codon_at mrna_in p :=
    codon_at_eq_of_get (fun t ht => hget t hi hp ht)
  refine ⟨p, hp, hpn, ?_, ?_, ?_, hcod, ?_⟩
  · rw [Nat.mul_comm 3 i, Nat.mul_comm 3 p]; exact e0
  · rw [Nat.mul_comm 3 i, Nat.mul_comm 3 p]; exact e1
  · rw [Nat.mul_comm 3 i, Nat.mul_comm 3 p]; exact e2
  · rw [hcod]; exact codon_at_length (by omega)

/-- A list of `B` distinct numbers below `B` is a rearrangement of `0, …, B - 1`. -/
theorem perm_range_of_nodup {ps : List Nat} {B : Nat} (hlen : ps.length = B)
    (hlt : ∀ p ∈ ps, p < B) (hnd : ps.Nodup) : ps.Perm (List.range B) := by
  apply List.Subperm.perm_of_length_le
  · apply List.subperm_of_subset hnd
    intro p hp
    exact List.mem_range.mpr (hlt p hp)
  · rw [List.length_range, hlen]

/-- Claim C10: for a table of `B` pairwise distinct entries in `[0, B)`, an input of `B` blocks
and an output buffer with room for the terminator, the permuter succeeds, its output has exactly
`B` blocks of three symbols followed by the NUL, and the multiset of these blocks is the
multiset of the blocks of the input. -/
theorem reorder_preserves_blocks (perm : List Int) (B : Nat) (mrna_in mrna_out : List Nat)
    (hlen : perm.length = B) (hrange : ∀ p ∈ perm, 0 ≤ p ∧ p < (B : Int)) (hinj : perm.Nodup)
    (hin : 3 * B ≤ mrna_in.length) (hout : 3 * B < mrna_out.length) :
    ∃ out, reorder_codons_with perm mrna_in mrna_out B = some out ∧
      out[3 * B]? = some 0 ∧
      (codons out B).length = B ∧ (∀ c ∈ codons out B, c.length = 3) ∧
      ((codons out B : List (List Nat)) : Multiset (List Nat)) =
        ((codons mrna_in B : List (List Nat)) : Multiset (List Nat)) := by
  have hentry : ∀ j, j < B → perm[j]? = some (((perm.map Int.toNat).getD j 0 : Nat) : Int) ∧
      (perm.map Int.toNat).getD j 0 < B := by
    intro j hj
    have hlt : j < perm.length := by omega
    have hr := hrange perm[j] (List.getElem_mem hlt)
    have hg : (perm.map Int.toNat).getD j 0 = perm[j].toNat := by
      rw [List.getD_eq_getElem?_getD, List.getElem?_map, List.getElem?_eq_getElem hlt]
      rfl
    rw [hg, List.getElem?_eq_getElem hlt, Int.toNat_of_nonneg hr.1]
    exact ⟨rfl, by omega⟩
  obtain ⟨out, h1, h2, h3, _, h5⟩ := reorder_codons_with_get perm mrna_in mrna_out B
    (by omega) (fun j hj => ⟨_, (hentry j hj).1, by have := (hentry j hj).2; omega⟩)
  have hblocks : codons out B = (perm.map Int.toNat).map (codon_at mrna_in) := by
    apply List.ext_getElem?
    intro j
    simp only [codons, List.getElem?_map]
    by_cases hj : j < B
    · have hlt : j < perm.length := by omega
      have hr := hrange perm[j] (List.getElem_mem hlt)
      rw [List.getElem?_range hj, List.getElem?_eq_getElem hlt]
      simp only [Option.map_some']
      congr 1
      apply codon_at_eq_of_get
      intro t ht
      apply h5 j perm[j].toNat t hj _ ht
      rw [List.getElem?_eq_getElem hlt, Int.toNat_of_nonneg hr.1]
    · rw [List.getElem?_eq_none (by rw [List.length_range]; omega),
        List.getElem?_eq_none (by omega)]
      rfl
  have hperm : (perm.map Int.toNat).Perm (List.range B) := by
    apply perm_range_of_nodup
    · rw [List.length_map, hlen]
    · intro p hp
      obtain ⟨q, hq, rfl⟩ := List.mem_map.mp hp
      have := hrange q hq
      omega
    · apply List.Nodup.map_on _ hinj
      intro x hx y hy hxy
      have := hrange x hx
      have := hrange y hy
      omega
  refine ⟨out, h1, by rw [Nat.mul_comm]; exact h3, ?_, ?_, ?_⟩
  · simp [codons]
  · intro c hc
    simp only [codons, List.mem_map, List.mem_range] at hc
    obtain ⟨j, hj, rfl⟩ := hc
    exact codon_at_length (by omega)
  · rw [hblocks]
    exact Multiset.coe_eq_coe.mpr (hperm.map (codon_at mrna_in))

/-! ## Translation -/

theorem CODON_TABLE_KEYS_length : CODON_TABLE_KEYS.length = 31 := by decide

theorem CODON_TABLE_VALS_length : CODON_TABLE_VALS.length = 31 := by decide

/-- Every key is a string of three non-NUL symbols. -/
theorem CODON_TABLE_KEYS_wf :
    ∀ key ∈ CODON_TABLE_KEYS, (key.take 3).length = 3 ∧ ∀ v ∈ key.take 3, v ≠ 0 := by
  decide

theorem CODON_TABLE_KEYS_distinct : (CODON_TABLE_KEYS.map (List.take 3)).Nodup := by
  decide

/-- On a block of three symbols and a key of three non-NUL symbols, `strncmp` over three bytes
returns, and returns 0 exactly when the block is the key. -/
theorem strncmp_key (codon key : List Nat) (hc : 3 ≤ codon.length)
    (hk : (key.take 3).length = 3) (hnz : ∀ v ∈ key.take 3, v ≠ 0) :
    ∃ r, strncmp codon key 3 = some r ∧ (r = 0 ↔ codon.take 3 = key.take 3) := by
  match codon, key, hc, hk, hnz with
  | a :: b :: c :: rest, x :: y :: z :: krest, _, _, hnz =>
    have hx : x ≠ 0 := hnz x (by simp)
    have hy : y ≠ 0 := hnz y (by simp)
    have hz : z ≠ 0 := hnz z (by simp)
    by_cases h1 : a = x
    · subst h1
      by_cases h2 : b = y
      · subst h2
        by_cases h3 : c = z
        · subst h3
          exact ⟨0, by simp [strncmp, hx, hy, hz], by simp⟩
        · refine ⟨(c : Int) - (z : Int), by simp [strncmp, hx, hy, h3], ?_⟩
          constructor
          · intro h; exact absurd (by omega) h3
          · intro h; simp at h; exact absurd h h3
      · refine ⟨(b : Int) - (y : Int), by simp [strncmp, hx, h2], ?_⟩
        constructor
        · intro h; exact absurd (by omega) h2
        · intro h; simp at h; exact absurd h.1 h2
    · refine ⟨(a : Int) - (x : Int), by simp [strncmp, h1], ?_⟩
      constructor
      · intro h; exact absurd (by omega) h1
      · intro h; simp at h; exact absurd h.1 h1
  | [], _, hc, _, _ => simp at hc
  | [_], _, hc, _, _ => simp at hc
  | [_, _], _, hc, _, _ => simp at hc
  | _ :: _ :: _ :: _, [], _, hk, _ => simp at hk
  | _ :: _ :: _ :: _, [_], _, hk, _ => simp at hk
  | _ :: _ :: _ :: _, [_, _], _, hk, _ => simp at hk

/-- The scan of `translate_codon` from entry `i`: the value of the first key equal to the block,
the byte `?` when no key from `i` on equals it. -/
theorem translate_codon_loop_spec (codon : List Nat) (hc : 3 ≤ codon.length) :
    ∀ (k i : Nat), i + k = 31 →
      ((∀ j key, i ≤ j → CODON_TABLE_KEYS[j]? = some key → codon.take 3 ≠ key.take 3) →
        translate_codon_loop codon k i = some 63) ∧
      (∀ j key, i ≤ j → CODON_TABLE_KEYS[j]? = some key → codon.take 3 = key.take 3 →
        (∀ j1 key1, i ≤ j1 → j1 < j → CODON_TABLE_KEYS[j1]? = some key1 →
          codon.take 3 ≠ key1.take 3) →
        translate_codon_loop codon k i = CODON_TABLE_VALS[j]?) := by
  intro k
  induction k with
  | zero =>
    intro i hi
    refine ⟨fun _ => ?_, fun j key hj hkey => ?_⟩
    · show some ('?'.toNat % 256) = some 63
      decide
    · have : j < CODON_TABLE_KEYS.length := (List.getElem?_eq_some.mp hkey).1
      rw [CODON_TABLE_KEYS_length] at this
      omega
  | succ k ih =>
    intro i hi
    have hlt : i < CODON_TABLE_KEYS.length := by rw [CODON_TABLE_KEYS_length]; omega
    have hki : CODON_TABLE_KEYS[i]? = some CODON_TABLE_KEYS[i] := List.getElem?_eq_getElem hlt
    obtain ⟨hk3, hnz⟩ := CODON_TABLE_KEYS_wf _ (List.getElem_mem hlt)
    obtain ⟨r, hr, hiff⟩ := strncmp_key codon CODON_TABLE_KEYS[i] hc hk3 hnz
    obtain ⟨ih1, ih2⟩ := ih (i + 1) (by omega)
    have hstep : translate_codon_loop codon (k + 1) i =
        if r = 0 then CODON_TABLE_VALS[i]? else translate_codon_loop codon k (i + 1) := by
      simp only [translate_codon_loop, hki, hr]
    rw [hstep]
    constructor
    · intro hnone
      have hne : r ≠ 0 := fun h => hnone i _ (Nat.le_refl i) hki (hiff.mp h)
      rw [if_neg hne]
      exact ih1 (fun j key hj hkey => hnone j key (by omega) hkey)
    · intro j key hj hkey heq hfirst
      by_cases hji : j = i
      · subst hji
        rw [hki] at hkey
        cases hkey
        rw [if_pos (hiff.mpr heq)]
      · have hne : r ≠ 0 := fun h =>
          hfirst i _ (Nat.le_refl i) (by omega) hki (hiff.mp h)
        rw [if_neg hne]
        exact ih2 j key (by omega) hkey heq
          (fun j1 key1 h1 h2 hk1 => hfirst j1 key1 (by omega) h2 hk1)

/-- Claim C7: the table has 31 keys, pairwise distinct; on a block equal, symbol for symbol, to
key `k`, `translate_codon` returns `CODON_TABLE_VALS[k]`; on a block of three symbols equal to
none of the keys it returns the byte `0x3F`. -/
theorem translate_codon_spec :
    CODON_TABLE_KEYS.length = 31 ∧ CODON_TABLE_VALS.length = 31 ∧
    (CODON_TABLE_KEYS.map (List.take 3)).Nodup ∧
    (∀ (codon : List Nat) (k : Nat) (key : List Nat),
      CODON_TABLE_KEYS[k]? = some key → codon.take 3 = key.take 3 →
      ∃ v, CODON_TABLE_VALS[k]? = some v ∧ translate_codon codon = some v) ∧
    (∀ codon : List Nat, 3 ≤ codon.length →
      (∀ key ∈ CODON_TABLE_KEYS, codon.take 3 ≠ key.take 3) →
      translate_codon codon = some 0x3F) := by
  refine ⟨CODON_TABLE_KEYS_length, CODON_TABLE_VALS_length, CODON_TABLE_KEYS_distinct, ?_, ?_⟩
  · intro codon k key hkey heq
    have hk : k < CODON_TABLE_KEYS.length := (List.getElem?_eq_some.mp hkey).1
    have hkv : k < CODON_TABLE_VALS.length := by
      rw [CODON_TABLE_VALS_length, ← CODON_TABLE_KEYS_length]; exact hk
    obtain ⟨hk3, _⟩ := CODON_TABLE_KEYS_wf key (List.getElem?_mem hkey)
    have hc : 3 ≤ codon.length := by
      have : (codon.take 3).length = 3 := by rw [heq, hk3]
      rw [List.length_take] at this
      omega
    refine ⟨CODON_TABLE_VALS[k], List.getElem?_eq_getElem hkv, ?_⟩
    rw [← List.getElem?_eq_getElem hkv]
    refine (translate_codon_loop_spec codon hc 31 0 rfl).2 k key (Nat.zero_le k) hkey heq ?_
    intro j1 key1 _ hj1 hkey1 heq1
    have hnd := List.nodup_iff_getElem?_ne_getElem?.mp CODON_TABLE_KEYS_distinct j1 k hj1
      (by rw [List.length_map]; exact hk)
    apply hnd
    rw [List.getElem?_map, List.getElem?_map, hkey, hkey1, Option.map_some', Option.map_some',
      ← heq, ← heq1]
  · intro codon hc hnone
    exact (translate_codon_loop_spec codon hc 31 0 rfl).1
      (fun j key _ hkey => hnone key (List.getElem?_mem hkey))

/-! ## The shipped constants, stage by stage -/

theorem transcribe_shipped :
    transcribe DNA_TEMPLATE (List.replicate (N_BASES + 1) 0) N_BASES = some MRNA_SHIPPED := by
  decide!

theorem analyse_shipped : (analyse_codon_frequency MRNA_SHIPPED N_CODONS).isSome = true := by
  decide!

theorem reorder_shipped :
    reorder_codons_with PERM MRNA_SHIPPED (List.replicate (N_BASES + 1) 0) N_CODONS =
      some MRNA_REORDERED_SHIPPED := by
  decide!

theorem reorder_fixed :
    reorder_codons_with PERM_FIXED MRNA_SHIPPED (List.replicate (N_BASES + 1) 0) N_CODONS =
      some MRNA_SHIPPED := by
  decide!

theorem translate_shipped :
    translate MRNA_REORDERED_SHIPPED (List.replicate N_CODONS 0) N_CODONS = some AA_SHIPPED := by
  decide!

theorem translate_fixed :
    translate MRNA_SHIPPED (List.replicate N_CODONS 0) N_CODONS = some AA_FIXED := by
  decide!

theorem validate_shipped : validate_structure AA_SHIPPED N_CODONS = some 1 := by
  decide!

theorem validate_fixed : validate_structure AA_FIXED N_CODONS = some 1 := by
  decide!

theorem fold_shipped :
    fold AA_SHIPPED (List.replicate N_CODONS 0) N_CODONS = some FOLDED_SHIPPED := by
  decide!

theorem fold_fixed : fold AA_FIXED (List.replicate N_CODONS 0) N_CODONS = some TARGET := by
  decide!

/-- The stages of `main` chained: when each stage succeeds and the structural check does not
return 0, the pipeline yields the buffer written by `fold`. -/
theorem pipeline_on_of_stages {dna : List Nat} {perm : List Int}
    {mrna0 mrna_reordered0 aa_seq0 folded0 mrna mrna_reordered aa_seq folded : List Nat}
    {ok : Int}
    (h1 : transcribe dna mrna0 N_BASES = some mrna)
    (h2 : (analyse_codon_frequency mrna N_CODONS).isSome = true)
    (h3 : reorder_codons_with perm mrna mrna_reordered0 N_CODONS = some mrna_reordered)
    (h4 : translate mrna_reordered aa_seq0 N_CODONS = some aa_seq)
    (h5 : validate_structure aa_seq N_CODONS = some ok) (hok : ok ≠ 0)
    (h6 : fold aa_seq folded0 N_CODONS = some folded) :
    pipeline_on dna perm mrna0 mrna_reordered0 aa_seq0 folded0 = some (some folded) := by
  obtain ⟨c, hc⟩ := Option.isSome_iff_exists.mp h2
  unfold pipeline_on
  rw [h1]
  dsimp only
  rw [hc]
  dsimp only
  rw [h3]
  dsimp only
  rw [h4]
  dsimp only
  rw [h5]
  dsimp only
  rw [if_neg hok, h6]

/-- The exit code and verdict of `main` from the folded buffer and the comparison. -/
theorem main_on_of_pipeline {dna : List Nat} {perm : List Int}
    {target mrna0 mrna_reordered0 aa_seq0 folded0 folded : List Nat} {v : Verdict}
    (h1 : pipeline_on dna perm mrna0 mrna_reordered0 aa_seq0 folded0 = some (some folded))
    (h2 : main_compare folded target N_CODONS = some v) :
    main_on dna perm target mrna0 mrna_reordered0 aa_seq0 folded0 = some (0, some v) := by
  unfold main_on
  rw [h1]
  dsimp only
  rw [h2]

theorem pipeline_shipped : pipeline_with PERM = some (some FOLDED_SHIPPED) :=
  pipeline_on_of_stages transcribe_shipped analyse_shipped reorder_shipped translate_shipped
    validate_shipped (by decide) fold_shipped

theorem pipeline_fixed : pipeline_with PERM_FIXED = some (some TARGET) :=
  pipeline_on_of_stages transcribe_shipped analyse_shipped reorder_fixed translate_fixed
    validate_fixed (by decide) fold_fixed

/-- Claim C1: on the shipped constants the pipeline produces a folded sequence that agrees with
`TARGET` at the indices 0 to 3 and differs at index 4, and `main` reports a mismatch whose
printed first deviation is 4. -/
theorem known_answer_first_deviation :
    ∃ folded, pipeline_with PERM = some (some folded) ∧ folded.length = 36 ∧
      (∀ i, i < 4 → folded[i]? = TARGET[i]?) ∧ folded[4]? ≠ TARGET[4]? ∧
      main_compare folded TARGET N_CODONS = some (Verdict.Mismatch [4]) ∧
      main = some (0, some (Verdict.Mismatch [4])) :=
  have hc : main_compare FOLDED_SHIPPED TARGET N_CODONS = some (Verdict.Mismatch [4]) := by
    decide!
  ⟨FOLDED_SHIPPED, pipeline_shipped, by decide!, by decide!, by decide!, hc,
   (main_on_of_pipeline pipeline_shipped hc : main_with PERM = _)⟩

/-- Claim C2: with entries 4 and 11 of the permutation table restored to the identity, every
entry is its own index, the folded sequence is `TARGET`, every target byte is the translation of
the block of the transcribed template at the same index xored with `(i * 11 + 31) mod 128`, and
`main` reports a match. -/
theorem correction_gives_match :
    (∀ i, i < 36 → PERM_FIXED[i]? = some (Int.ofNat i)) ∧
    pipeline_with PERM_FIXED = some (some TARGET) ∧
    (∃ mrna, transcribe DNA_TEMPLATE (List.replicate (N_BASES + 1) 0) N_BASES = some mrna ∧
      ∀ i, i < 36 →
        (translate_codon (mrna.drop (i * 3))).map (fun v => v ^^^ ((i * 11 + 31) % 128)) =
          TARGET[i]?) ∧
    main_with PERM_FIXED = some (0, some Verdict.Match) :=
  have hc : main_compare TARGET TARGET N_CODONS = some Verdict.Match := by decide!
  ⟨by decide!, pipeline_fixed, ⟨MRNA_SHIPPED, transcribe_shipped, by decide!⟩,
   main_on_of_pipeline pipeline_fixed hc⟩

/-- Claim C3 as stated fails: with the corrected table the first 11 bytes of the folded sequence
are not the text `Securinets{`. -/
theorem flag_prefix_not_brace :
    ¬ ∃ folded, pipeline_with PERM_FIXED = some (some folded) ∧
      folded.take 11 = ascii "Securinets\x7b" := by
  rintro ⟨folded, h, h11⟩
  rw [pipeline_fixed] at h
  cases h
  revert h11
  decide!

/-- Claim C3, amended: with the corrected table the folded sequence is the 36-character text
`SecurinetsENIT{c3ntr4l_d0gm4_br0k3n}`; its first 10 characters are `Securinets` and the opening
brace is the 15th character, after `ENIT`. -/
theorem flag_prefix :
    ∃ folded, pipeline_with PERM_FIXED = some (some folded) ∧
      folded = ascii "SecurinetsENIT\x7bc3ntr4l_d0gm4_br0k3n\x7d" ∧
      folded.take 10 = ascii "Securinets" ∧
      folded.take 15 = ascii "SecurinetsENIT\x7b" :=
  ⟨TARGET, pipeline_fixed, by decide!, by decide!, by decide!⟩


/-! ## Instances of the general statements on the shipped data -/

theorem PERM_range : ∀ p ∈ PERM, 0 ≤ p ∧ p < ((36 : Nat) : Int) := by decide

theorem AA_SHIPPED_bytes : ∀ v ∈ AA_SHIPPED, v < 256 := by decide

/-- Instance of C4: the comparison on the folded sequence of the shipped pipeline and the
target. -/
theorem main_compare_spec_witness :
    FOLDED_SHIPPED.length = 36 ∧ TARGET.length = 36 ∧
    (main_compare FOLDED_SHIPPED TARGET N_CODONS = some Verdict.Match ↔
      ∀ i, i < 36 → FOLDED_SHIPPED[i]? = TARGET[i]?) ∧
    ((¬ ∀ i, i < 36 → FOLDED_SHIPPED[i]? = TARGET[i]?) →
      ∃ m, m < 36 ∧ FOLDED_SHIPPED[m]? ≠ TARGET[m]? ∧
        (∀ j, j < m → FOLDED_SHIPPED[j]? = TARGET[j]?) ∧
        main_compare FOLDED_SHIPPED TARGET N_CODONS = some (Verdict.Mismatch [m])) :=
  ⟨by decide, by decide, main_compare_spec FOLDED_SHIPPED TARGET (by decide) (by decide)⟩

/-- Instance of C5: transcription of the shipped template into a buffer of 109 bytes. -/
theorem transcribe_spec_witness :
    108 ≤ DNA_TEMPLATE.length ∧ 108 < (List.replicate 109 0).length ∧
    ∃ out, transcribe DNA_TEMPLATE (List.replicate 109 0) 108 = some out ∧
      out.length = (List.replicate 109 0).length ∧
      (out.take 108).length = 108 ∧ (∀ o ∈ out.take 108, o ≠ 0) ∧
      out[108]? = some 0 ∧
      (∀ i, i < 108 → ∃ c o, DNA_TEMPLATE[i]? = some c ∧ out[i]? = some o ∧
        (c = 'A'.toNat → o = 'U'.toNat) ∧ (c = 'T'.toNat → o = 'A'.toNat) ∧
        (c = 'C'.toNat → o = 'G'.toNat) ∧ (c = 'G'.toNat → o = 'C'.toNat) ∧
        (c ≠ 'A'.toNat → c ≠ 'T'.toNat → c ≠ 'C'.toNat → c ≠ 'G'.toNat → o = '?'.toNat)) ∧
      ((∀ i c, i < 108 → DNA_TEMPLATE[i]? = some c → c ∈ ascii "ATCG") →
        ∀ i o, i < 108 → out[i]? = some o → o ∈ ascii "UAGC") :=
  ⟨by decide, by decide,
   transcribe_spec DNA_TEMPLATE (List.replicate 109 0) 108 (by decide) (by decide)⟩

/-- Instance of C6: reordering the 36 blocks of the transcribed template. -/
theorem reorder_codons_spec_witness :
    36 ≤ 36 ∧ 3 * 36 ≤ MRNA_SHIPPED.length ∧ 3 * 36 < (List.replicate 109 0).length ∧
    (∀ i p, i < 36 → PERM[i]? = some p → p < ((36 : Nat) : Int)) ∧
    ∃ out, reorder_codons MRNA_SHIPPED (List.replicate 109 0) 36 = some out ∧
      out.length = (List.replicate 109 0).length ∧ out[3 * 36]? = some 0 ∧
      ∀ i, i < 36 → ∃ p : Nat, PERM[i]? = some (p : Int) ∧ p < 36 ∧
        out[3 * i]? = MRNA_SHIPPED[3 * p]? ∧ out[3 * i + 1]? = MRNA_SHIPPED[3 * p + 1]? ∧
        out[3 * i + 2]? = MRNA_SHIPPED[3 * p + 2]? ∧
        codon_at out i = codon_at MRNA_SHIPPED p ∧ (codon_at out i).length = 3 :=
  ⟨by decide, by decide, by decide,
   fun _ p _ hp => (PERM_range p (List.getElem?_mem hp)).2,
   reorder_codons_spec MRNA_SHIPPED (List.replicate 109 0) 36 (by decide) (by decide)
     (by decide) (fun _ p _ hp => (PERM_range p (List.getElem?_mem hp)).2)⟩

/-- Instance of C8: folding the amino acid codes of the shipped pipeline. -/
theorem fold_spec_witness :
    (∀ v ∈ AA_SHIPPED, v < 256) ∧ 36 ≤ AA_SHIPPED.length ∧ (List.replicate 36 0).length = 36 ∧
    (∀ i, fold_mask i = (i * 11 + 31) % 128) ∧
    ∃ out, fold AA_SHIPPED (List.replicate 36 0) 36 = some out ∧ out.length = 36 ∧
      ∀ i, i < 36 →
        ∃ v, AA_SHIPPED[i]? = some v ∧ out[i]? = some (v ^^^ ((i * 11 + 31) % 128)) :=
  ⟨AA_SHIPPED_bytes, by decide, by decide,
   fold_spec AA_SHIPPED (List.replicate 36 0) 36 AA_SHIPPED_bytes (by decide) (by decide)⟩

/-- Instance of C9: folding the amino acid codes of the shipped pipeline twice. -/
theorem fold_fold_witness :
    (∀ v ∈ AA_SHIPPED, v < 256) ∧ (List.replicate 36 0).length = AA_SHIPPED.length ∧
    ∃ y, fold AA_SHIPPED (List.replicate 36 0) AA_SHIPPED.length = some y ∧
      fold y (List.replicate 36 0) AA_SHIPPED.length = some AA_SHIPPED :=
  ⟨AA_SHIPPED_bytes, by decide,
   fold_fold AA_SHIPPED (List.replicate 36 0) (List.replicate 36 0) AA_SHIPPED_bytes
     (by decide) (by decide)⟩

/-- Instance of C10: the shipped `PERM` is a table of 36 distinct entries in `[0, 36)`, so
reordering the transcribed template keeps its multiset of blocks. -/
theorem reorder_preserves_blocks_witness :
    PERM.length = 36 ∧ (∀ p ∈ PERM, 0 ≤ p ∧ p < ((36 : Nat) : Int)) ∧ PERM.Nodup ∧
    3 * 36 ≤ MRNA_SHIPPED.length ∧ 3 * 36 < (List.replicate 109 0).length ∧
    ∃ out, reorder_codons_with PERM MRNA_SHIPPED (List.replicate 109 0) 36 = some out ∧
      out[3 * 36]? = some 0 ∧
      (codons out 36).length = 36 ∧ (∀ c ∈ codons out 36, c.length = 3) ∧
      ((codons out 36 : List (List Nat)) : Multiset (List Nat)) =
        ((codons MRNA_SHIPPED 36 : List (List Nat)) : Multiset (List Nat)) :=
  ⟨by decide, PERM_range, by decide, by decide, by decide,
   reorder_preserves_blocks PERM 36 MRNA_SHIPPED (List.replicate 109 0) (by decide) PERM_range
     (by decide) (by decide) (by decide)⟩

/-! ## Sentinel propagation -/

/-- On a block of three symbols the scan of `translate_codon` returns a byte. -/
theorem translate_codon_loop_isSome (codon : List Nat) (hc : 3 ≤ codon.length) :
    ∀ (k i : Nat), i + k = 31 → (translate_codon_loop codon k i).isSome = true := by
  intro k
  induction k with
  | zero => intro i _; rfl
  | succ k ih =>
    intro i hi
    have hlt : i < CODON_TABLE_KEYS.length := by rw [CODON_TABLE_KEYS_length]; omega
    have hlv : i < CODON_TABLE_VALS.length := by rw [CODON_TABLE_VALS_length]; omega
    obtain ⟨hk3, hnz⟩ := CODON_TABLE_KEYS_wf _ (List.getElem_mem hlt)
    obtain ⟨r, hr, _⟩ := strncmp_key codon CODON_TABLE_KEYS[i] hc hk3 hnz
    simp only [translate_codon_loop, List.getElem?_eq_getElem hlt, hr]
    by_cases h0 : r = 0
    · rw [if_pos h0, List.getElem?_eq_getElem hlv]; rfl
    · rw [if_neg h0]; exact ih (i + 1) (by omega)

/-- The buffer written by `translate`, byte by byte. -/
theorem translate_get (mrna aa_seq : List Nat) (n_cod : Nat)
    (hm : n_cod * 3 ≤ mrna.length) (ha : n_cod ≤ aa_seq.length) :
    ∃ out, translate mrna aa_seq n_cod = some out ∧ out.length = aa_seq.length ∧
      ∀ j, out[j]? = if j < n_cod then translate_codon (mrna.drop (j * 3)) else aa_seq[j]? := by
  obtain ⟨out, h1, h2, h3⟩ := store_loop_spec
    (fun j => translate_codon (mrna.drop (j * 3))) n_cod 0 aa_seq (by omega)
    (fun j _ hj => translate_codon_loop_isSome _
      (by rw [List.length_drop]; omega) 31 0 rfl)
  refine ⟨out, ?_, h2, fun j => ?_⟩
  · rw [translate, translate_loop_eq, h1]
  · rw [h3 j]
    simp only [Nat.zero_le, true_and, Nat.zero_add]

/-- No key of the table contains the symbol `?`. -/
theorem CODON_TABLE_KEYS_no_sentinel : ∀ key ∈ CODON_TABLE_KEYS, 63 ∉ key.take 3 := by
  decide

/-- A block of three symbols containing `?` translates to the byte `0x3F`. -/
theorem translate_codon_of_sentinel (codon : List Nat) (hc : 3 ≤ codon.length)
    (h : 63 ∈ codon.take 3) : translate_codon codon = some 63 := by
  refine (translate_codon_loop_spec codon hc 31 0 rfl).1 (fun j key _ hkey heq => ?_)
  exact CODON_TABLE_KEYS_no_sentinel key (List.getElem?_mem hkey) (heq ▸ h)

/-- Claim C11: for a source of 108 symbols and a position `p < 108` whose symbol is none of
`A`, `T`, `C`, `G`, `transcribe` writes `?` at position `p`, `reorder_codons` and `translate`
succeed, and the mapped byte is `0x3F` at every output block index `j` with `PERM[j] = p / 3`;
no key of the table contains `?`. -/
theorem sentinel_propagation (dna mrna0 mrna_reordered0 aa_seq0 : List Nat) (p c : Nat)
    (hd : 108 ≤ dna.length) (hm : 108 < mrna0.length) (hr : 108 < mrna_reordered0.length)
    (ha : 36 ≤ aa_seq0.length) (hp : p < 108) (hc : dna[p]? = some c)
    (hA : c ≠ 'A'.toNat) (hT : c ≠ 'T'.toNat) (hC : c ≠ 'C'.toNat) (hG : c ≠ 'G'.toNat) :
    (∀ key ∈ CODON_TABLE_KEYS, '?'.toNat ∉ key) ∧
    ∃ mrna mrna_reordered aa_seq,
      transcribe dna mrna0 N_BASES = some mrna ∧ mrna[p]? = some '?'.toNat ∧
      reorder_codons mrna mrna_reordered0 N_CODONS = some mrna_reordered ∧
      translate mrna_reordered aa_seq0 N_CODONS = some aa_seq ∧
      ∀ j, j < 36 → PERM[j]? = some ((p / 3 : Nat) : Int) → aa_seq[j]? = some 0x3F := by
  have hN : N_BASES = 108 := rfl
  have hNc : N_CODONS = 36 := rfl
  have hQ : '?'.toNat = 63 := by decide
  have hA' : 'A'.toNat = 65 := by decide
  have hT' : 'T'.toNat = 84 := by decide
  have hC' : 'C'.toNat = 67 := by decide
  have hG' : 'G'.toNat = 71 := by decide
  rw [hA'] at hA; rw [hT'] at hT; rw [hC'] at hC; rw [hG'] at hG
  rw [hN, hNc, hQ]
  refine ⟨by decide, ?_⟩
  obtain ⟨mrna, t1, t2, t3⟩ := transcribe_get dna mrna0 108 hd hm
  have hmp : mrna[p]? = some 63 := by
    rw [t3 p, if_pos hp, hc, Option.map_some', transcribe_base_eq, if_neg hA, if_neg hT,
      if_neg hC, if_neg hG]
  obtain ⟨re, r1, r2, _, _, r5⟩ := reorder_codons_with_get PERM mrna mrna_reordered0 36
    (by omega) (fun j hj => by
      have hlt : j < PERM.length := by
        have : PERM.length = 36 := by decide
        omega
      have hrg := PERM_range PERM[j] (List.getElem_mem hlt)
      refine ⟨PERM[j].toNat, ?_, by omega⟩
      rw [List.getElem?_eq_getElem hlt, Int.toNat_of_nonneg hrg.1])
  obtain ⟨aa, a1, _, a3⟩ := translate_get re aa_seq0 36 (by omega) ha
  refine ⟨mrna, re, aa, t1, hmp, r1, a1, fun j hj hperm => ?_⟩
  rw [a3 j, if_pos hj]
  apply translate_codon_of_sentinel
  · rw [List.length_drop]; omega
  · have hblk : codon_at re j = codon_at mrna (p / 3) :=
      codon_at_eq_of_get (fun t ht => r5 j (p / 3) t hj hperm ht)
    have hmem : 63 ∈ codon_at mrna (p / 3) := by
      apply List.mem_iff_getElem?.mpr
      refine ⟨p % 3, ?_⟩
      simp only [codon_at, List.getElem?_take, List.getElem?_drop]
      rw [if_pos (Nat.mod_lt p (by omega))]
      have : p / 3 * 3 + p % 3 = p := by omega
      rw [this, hmp]
    rw [← hblk] at hmem
    exact hmem

/-! ## Table entries outside the block range -/

theorem load_neg (buf : List Nat) {i : Int} (h : i < 0) : load buf i = none := by
  simp [load, h]

theorem load_ge (buf : List Nat) {i : Int} (h : (buf.length : Int) ≤ i) : load buf i = none := by
  unfold load
  split
  · rfl
  · apply List.getElem?_eq_none
    omega

/-- One iteration of `reorder_codons` whose table entry indexes a symbol outside the input
buffer has no defined result. -/
theorem reorder_codons_loop_bad_entry (perm : List Int) (mrna_in : List Nat) (k i : Nat)
    (mrna_out : List Nat) (p : Int) (hp : perm[i]? = some p)
    (hbad : p < 0 ∨ (mrna_in.length : Int) ≤ p * 3 + 2) :
    reorder_codons_loop perm mrna_in (k + 1) i mrna_out = none := by
  simp only [reorder_codons_loop, hp]
  rcases hbad with h | h
  · rw [load_neg mrna_in (by omega : p * 3 + 0 < 0)]
  · rw [load_ge mrna_in h]
    cases load mrna_in (p * 3 + 0) with
    | none => rfl
    | some c0 =>
      dsimp only
      cases store mrna_out (i * 3 + 0) c0 with
      | none => rfl
      | some out0 =>
        dsimp only
        cases load mrna_in (p * 3 + 1) with
        | none => rfl
        | some c1 =>
          dsimp only
          cases store out0 (i * 3 + 1) c1 with
          | none => rfl
          | some out1 => rfl

/-- A later iteration without defined result leaves the loop without defined result. -/
theorem reorder_codons_loop_step_none (perm : List Int) (mrna_in : List Nat) (k i : Nat)
    (h : ∀ out, reorder_codons_loop perm mrna_in k (i + 1) out = none) (mrna_out : List Nat) :
    reorder_codons_loop perm mrna_in (k + 1) i mrna_out = none := by
  simp only [reorder_codons_loop]
  cases perm[i]? with
  | none => rfl
  | some src =>
    dsimp only
    cases load mrna_in (src * 3 + 0) with
    | none => rfl
    | some c0 =>
      dsimp only
      cases store mrna_out (i * 3 + 0) c0 with
      | none => rfl
      | some out0 =>
        dsimp only
        cases load mrna_in (src * 3 + 1) with
        | none => rfl
        | some c1 =>
          dsimp only
          cases store out0 (i * 3 + 1) c1 with
          | none => rfl
          | some out1 =>
            dsimp only
            cases load mrna_in (src * 3 + 2) with
            | none => rfl
            | some c2 =>
              dsimp only
              cases store out1 (i * 3 + 2) c2 with
              | none => rfl
              | some out2 => exact h out2

/-- The loop of `reorder_codons` has no defined result as soon as one of the entries it visits
indexes a symbol outside the input buffer. -/
theorem reorder_codons_loop_none (perm : List Int) (mrna_in : List Nat) (j : Nat) (p : Int)
    (hp : perm[j]? = some p) (hbad : p < 0 ∨ (mrna_in.length : Int) ≤ p * 3 + 2) :
    ∀ (k i : Nat) (mrna_out : List Nat), i ≤ j → j < i + k →
      reorder_codons_loop perm mrna_in k i mrna_out = none := by
  intro k
  induction k with
  | zero => intro i _ h1 h2; omega
  | succ k ih =>
    intro i mrna_out h1 h2
    by_cases hij : i = j
    · subst hij
      exact reorder_codons_loop_bad_entry perm mrna_in k i mrna_out p hp hbad
    · exact reorder_codons_loop_step_none perm mrna_in k i
        (fun out => ih (i + 1) out (by omega) (by omega)) mrna_out

theorem reorder_codons_with_none (perm : List Int) (mrna_in mrna_out : List Nat)
    (n_cod j : Nat) (p : Int) (hj : j < n_cod) (hp : perm[j]? = some p)
    (hbad : p < 0 ∨ (mrna_in.length : Int) ≤ p * 3 + 2) :
    reorder_codons_with perm mrna_in mrna_out n_cod = none := by
  unfold reorder_codons_with
  rw [reorder_codons_loop_none perm mrna_in j p hp hbad n_cod 0 mrna_out (Nat.zero_le j)
    (by omega)]

/-- The pipeline has no defined result when the permuter has none. -/
theorem pipeline_on_none_of_reorder {dna : List Nat} {perm : List Int}
    {mrna0 mrna_reordered0 aa_seq0 folded0 mrna : List Nat}
    (h1 : transcribe dna mrna0 N_BASES = some mrna)
    (h3 : reorder_codons_with perm mrna mrna_reordered0 N_CODONS = none) :
    pipeline_on dna perm mrna0 mrna_reordered0 aa_seq0 folded0 = none := by
  unfold pipeline_on
  rw [h1]
  dsimp only
  cases analyse_codon_frequency mrna N_CODONS with
  | none => rfl
  | some c =>
    dsimp only
    rw [h3]

theorem main_on_none_of_pipeline {dna : List Nat} {perm : List Int}
    {target mrna0 mrna_reordered0 aa_seq0 folded0 : List Nat}
    (h1 : pipeline_on dna perm mrna0 mrna_reordered0 aa_seq0 folded0 = none) :
    main_on dna perm target mrna0 mrna_reordered0 aa_seq0 folded0 = none := by
  unfold main_on
  rw [h1]

theorem MRNA_SHIPPED_length : MRNA_SHIPPED.length = 109 := by decide

/-- Claim C12 as stated fails: called on the first 5 blocks of the transcribed template, the
permuter meets the entry `PERM[4] = 11`, outside `[0, 5)`, raises no error, and returns with
block 11 of the buffer, which lies outside the 15-symbol input sequence, copied to block 4. -/
theorem reorder_codons_no_bounds_error :
    PERM[4]? = some 11 ∧ ¬ ((11 : Int) < 5) ∧
    ∃ out, reorder_codons MRNA_SHIPPED (List.replicate 16 0) 5 = some out ∧
      codon_at out 4 = codon_at MRNA_SHIPPED 11 ∧ codon_at out 4 = ascii "CCG" := by
  decide!

/-- Claim C12, amended: the permuter does not check the table. When every entry it visits
indexes three symbols inside the input buffer it returns normally, with block `perm[j]` of the
buffer copied to block `j`, whether or not the entry is below the block count; when an entry is
negative or indexes a symbol beyond the buffer the access is out of bounds and the permuter has
no defined result, and then, on the buffers of `main`, an entry outside `[0, 36)` leaves `main`
without verdict. -/
theorem reorder_codons_unchecked :
    (∀ (perm : List Int) (mrna_in mrna_out : List Nat) (n_cod : Nat),
      n_cod * 3 < mrna_out.length →
      (∀ j, j < n_cod → ∃ p : Nat, perm[j]? = some (p : Int) ∧ p * 3 + 2 < mrna_in.length) →
      ∃ out, reorder_codons_with perm mrna_in mrna_out n_cod = some out ∧
        ∀ j p, j < n_cod → perm[j]? = some ((p : Nat) : Int) →
          codon_at out j = codon_at mrna_in p) ∧
    (∀ (perm : List Int) (mrna_in mrna_out : List Nat) (n_cod j : Nat) (p : Int),
      j < n_cod → perm[j]? = some p → (p < 0 ∨ (mrna_in.length : Int) ≤ p * 3 + 2) →
      reorder_codons_with perm mrna_in mrna_out n_cod = none) ∧
    (∀ (perm : List Int) (j : Nat) (p : Int),
      j < 36 → perm[j]? = some p → (p < 0 ∨ 36 ≤ p) → main_with perm = none) := by
  refine ⟨?_, ?_, ?_⟩
  · intro perm mrna_in mrna_out n_cod hout hperm
    obtain ⟨out, h1, _, _, _, h5⟩ :=
      reorder_codons_with_get perm mrna_in mrna_out n_cod hout hperm
    exact ⟨out, h1, fun j p hj hp => codon_at_eq_of_get (fun t ht => h5 j p t hj hp ht)⟩
  · intro perm mrna_in mrna_out n_cod j p hj hp hbad
    exact reorder_codons_with_none perm mrna_in mrna_out n_cod j p hj hp hbad
  · intro perm j p hj hp hbad
    have hbad2 : p < 0 ∨ (MRNA_SHIPPED.length : Int) ≤ p * 3 + 2 := by
      rw [MRNA_SHIPPED_length]
      rcases hbad with h | h
      · exact Or.inl h
      · right; push_cast; omega
    exact main_on_none_of_pipeline (pipeline_on_none_of_reorder transcribe_shipped
      (reorder_codons_with_none perm MRNA_SHIPPED _ N_CODONS j p hj hp hbad2))

/-! ## The empty boundary -/

/-- Claim C13: with block count 0 every stage succeeds and writes no symbol: `transcribe` and
`reorder_codons` store only the terminating NUL at index 0, so their output is the empty
string, `translate` and `fold` leave their output buffer as it is (empty when it is empty),
and the comparison over 0 bytes yields `Match`. -/
theorem empty_boundary (dna mrna mrna_in mrna_out aa_seq folded target : List Nat)
    (h1 : 0 < mrna.length) (h2 : 0 < mrna_out.length) :
    transcribe dna mrna 0 = some (mrna.set 0 0) ∧ (mrna.set 0 0)[0]? = some 0 ∧
    reorder_codons mrna_in mrna_out 0 = some (mrna_out.set 0 0) ∧
    (mrna_out.set 0 0)[0]? = some 0 ∧
    translate mrna_in aa_seq 0 = some aa_seq ∧ translate mrna_in [] 0 = some [] ∧
    fold aa_seq folded 0 = some folded ∧ fold [] [] 0 = some [] ∧
    main_compare folded target 0 = some Verdict.Match ∧
    main_compare [] [] 0 = some Verdict.Match := by
  refine ⟨?_, ?_, ?_, ?_, rfl, rfl, rfl, rfl, ?_, ?_⟩
  · simp only [transcribe, transcribe_loop, store_of_lt 0 h1]
  · rw [List.getElem?_set, if_pos rfl, if_pos h1]
  · simp only [reorder_codons, reorder_codons_with, reorder_codons_loop, Nat.zero_mul,
      store_of_lt 0 h2]
  · rw [List.getElem?_set, if_pos rfl, if_pos h2]
  · simp [main_compare, memcmp]
  · simp [main_compare, memcmp]

/-! ## The structural check -/

/-- With no byte to read, the first statement of `validate_structure` reads `seq[0]` out of
bounds: the check is outside the stages that have an empty boundary. -/
theorem validate_structure_empty : validate_structure [] 0 = none := rfl

theorem validate_structure_loop_isSome (seq : List Nat) :
    ∀ (k i gc : Nat), i + k ≤ seq.length →
      ∃ gc1, validate_structure_loop seq k i gc = some gc1 := by
  intro k
  induction k with
  | zero => intro i gc _; exact ⟨gc, rfl⟩
  | succ k ih =>
    intro i gc h
    have hi : i < seq.length := by omega
    simp only [validate_structure_loop, List.getElem?_eq_getElem hi]
    exact ih (i + 1) _ (by omega)

/-- Whatever `validate_structure` returns, it is 1. -/
theorem validate_structure_eq_one (seq : List Nat) (n : Nat) (ok : Int)
    (h : validate_structure seq n = some ok) : ok = 1 := by
  unfold validate_structure at h
  cases hs : seq[0]? with
  | none => rw [hs] at h; cases h
  | some v =>
    rw [hs] at h
    dsimp only at h
    have hsq : Int.ofNat v * Int.ofNat v ≥ 0 := mul_self_nonneg _
    rw [if_neg (not_not.mpr hsq)] at h
    cases hl : validate_structure_loop seq n 0 0 with
    | none => rw [hl] at h; cases h
    | some gc =>
      rw [hl] at h
      dsimp only at h
      rw [ite_self] at h
      exact (Option.some.inj h).symm

/-- The early `return 1` of `main` is never taken. -/
theorem pipeline_on_ne_some_none (dna : List Nat) (perm : List Int)
    (mrna0 mrna_reordered0 aa_seq0 folded0 : List Nat) :
    pipeline_on dna perm mrna0 mrna_reordered0 aa_seq0 folded0 ≠ some none := by
  unfold pipeline_on
  cases transcribe dna mrna0 N_BASES with
  | none => simp
  | some mrna =>
    dsimp only
    cases analyse_codon_frequency mrna N_CODONS with
    | none => simp
    | some c =>
      dsimp only
      cases reorder_codons_with perm mrna mrna_reordered0 N_CODONS with
      | none => simp
      | some re =>
        dsimp only
        cases translate re aa_seq0 N_CODONS with
        | none => simp
        | some aa =>
          dsimp only
          cases hv : validate_structure aa N_CODONS with
          | none => simp
          | some ok =>
            dsimp only
            have h1 := validate_structure_eq_one aa N_CODONS ok hv
            subst h1
            rw [if_neg (by decide)]
            cases fold aa folded0 N_CODONS with
            | none => simp
            | some f => simp

theorem main_on_exit_code (dna : List Nat) (perm : List Int)
    (target mrna0 mrna_reordered0 aa_seq0 folded0 : List Nat) (res : Int × Option Verdict)
    (h : main_on dna perm target mrna0 mrna_reordered0 aa_seq0 folded0 = some res) :
    res.1 = 0 := by
  unfold main_on at h
  have hne := pipeline_on_ne_some_none dna perm mrna0 mrna_reordered0 aa_seq0 folded0
  cases hp : pipeline_on dna perm mrna0 mrna_reordered0 aa_seq0 folded0 with
  | none => rw [hp] at h; cases h
  | some o =>
    cases o with
    | none => exact absurd hp hne
    | some f =>
      rw [hp] at h
      dsimp only at h
      cases hc : main_compare f target N_CODONS with
      | none => rw [hc] at h; cases h
      | some v =>
        rw [hc] at h
        cases h
        rfl

theorem main_compare_shipped :
    main_compare FOLDED_SHIPPED TARGET N_CODONS = some (Verdict.Mismatch [4]) := by
  decide!

theorem main_shipped : main = some (0, some (Verdict.Mismatch [4])) :=
  (main_on_of_pipeline pipeline_shipped main_compare_shipped : main_with PERM = _)

/-- Claim C14: on a non-empty byte sequence and `n` not exceeding its length
`validate_structure` returns 1; the square of its first byte is at most 65025, below `2^31`,
so the test `x * x >= 0` is evaluated without overflow; whatever its inputs `main` never
returns the exit code 1, and the program's `main` returns 0. -/
theorem validate_structure_always_one (seq : List Nat) (n : Nat)
    (hne : seq ≠ []) (hn : n ≤ seq.length) (hb : ∀ v ∈ seq, v < 256) :
    validate_structure seq n = some 1 ∧
    (∃ v, seq[0]? = some v ∧ v * v ≤ 65025 ∧ 65025 < 2 ^ 31) ∧
    (∀ (dna : List Nat) (perm : List Int)
      (target mrna0 mrna_reordered0 aa_seq0 folded0 : List Nat) (res : Int × Option Verdict),
      main_on dna perm target mrna0 mrna_reordered0 aa_seq0 folded0 = some res → res.1 = 0) ∧
    ∃ v, main = some (0, some v) := by
  have h0 : 0 < seq.length := List.length_pos.mpr hne
  have hv : seq[0] < 256 := hb _ (List.getElem_mem h0)
  refine ⟨?_, ⟨seq[0], List.getElem?_eq_getElem h0, ?_, by norm_num⟩, main_on_exit_code,
    ⟨_, main_shipped⟩⟩
  · obtain ⟨gc, hgc⟩ := validate_structure_loop_isSome seq n 0 0 (by omega)
    have hsq : Int.ofNat seq[0] * Int.ofNat seq[0] ≥ 0 := mul_self_nonneg _
    simp only [validate_structure, List.getElem?_eq_getElem h0, hgc,
      if_neg (not_not.mpr hsq), ite_self]
  · have : seq[0] ≤ 255 := by omega
    calc seq[0] * seq[0] ≤ 255 * 255 := Nat.mul_le_mul this this
      _ = 65025 := by norm_num

/-! ## The shipped table -/

theorem PERM_length : PERM.length = 36 := by decide

/-- Every entry of the shipped table, as a natural number below 36. -/
theorem PERM_entry (j : Nat) (hj : j < 36) :
    ∃ p : Nat, PERM[j]? = some (p : Int) ∧ p < 36 := by
  have hlt : j < PERM.length := by rw [PERM_length]; exact hj
  have hrg := PERM_range PERM[j] (List.getElem_mem hlt)
  refine ⟨PERM[j].toNat, ?_, by omega⟩
  rw [List.getElem?_eq_getElem hlt, Int.toNat_of_nonneg hrg.1]

/-- The shipped table is its own inverse. -/
theorem PERM_involutive :
    ∀ i, i < 36 → ∀ p, p < 36 → PERM[i]? = some (Int.ofNat p) → PERM[p]? = some (Int.ofNat i) := by
  decide

/-- Claim C15: every entry of `PERM` lies in `[0, 36)`; hence for `n_cod = 36` and an input of
108 symbols every index `src * 3 + k` with `k` in `0..2` read by `reorder_codons` lies in
`[0, 108)`, each read returns a symbol, and `reorder_codons` returns a buffer. -/
theorem PERM_reads_in_range (mrna_in mrna_out : List Nat)
    (hin : 108 ≤ mrna_in.length) (hout : 108 < mrna_out.length) :
    PERM.length = 36 ∧ (∀ p ∈ PERM, 0 ≤ p ∧ p < 36) ∧
    (∀ (i : Nat) (src k : Int), i < 36 → PERM[i]? = some src → 0 ≤ k → k ≤ 2 →
      0 ≤ src * 3 + k ∧ src * 3 + k < 108 ∧ ∃ c, load mrna_in (src * 3 + k) = some c) ∧
    ∃ out, reorder_codons mrna_in mrna_out 36 = some out := by
  refine ⟨PERM_length, PERM_range, ?_, ?_⟩
  · intro i src k _ hsrc hk0 hk2
    have hrg := PERM_range src (List.getElem?_mem hsrc)
    have h1 : 0 ≤ src * 3 + k := by omega
    have h2 : src * 3 + k < 108 := by omega
    refine ⟨h1, h2, ?_⟩
    have hlt : (src * 3 + k).toNat < mrna_in.length := by omega
    refine ⟨mrna_in[(src * 3 + k).toNat], ?_⟩
    unfold load
    rw [if_neg (by omega), List.getElem?_eq_getElem hlt]
  · obtain ⟨out, h1, _⟩ := reorder_codons_with_get PERM mrna_in mrna_out 36 (by omega)
      (fun j hj => by
        obtain ⟨p, hp, hp36⟩ := PERM_entry j hj
        exact ⟨p, hp, by omega⟩)
    exact ⟨out, h1⟩

/-- Claim C16: for an input of 108 symbols and every `i < 36`, block `PERM[i]` of the output of
`reorder_codons` is block `i` of its input, and block `i` of the output is block `PERM[i]` of
the input (the shipped table is its own inverse). -/
theorem reorder_codons_direction (mrna_in mrna_out : List Nat)
    (hin : 108 ≤ mrna_in.length) (hout : 108 < mrna_out.length) :
    ∃ out, reorder_codons mrna_in mrna_out 36 = some out ∧
      ∀ i, i < 36 → ∃ p : Nat, PERM[i]? = some (p : Int) ∧ p < 36 ∧
        codon_at out p = codon_at mrna_in i ∧ codon_at out i = codon_at mrna_in p := by
  obtain ⟨out, h1, _, _, _, h5⟩ := reorder_codons_with_get PERM mrna_in mrna_out 36 (by omega)
    (fun j hj => by
      obtain ⟨p, hp, hp36⟩ := PERM_entry j hj
      exact ⟨p, hp, by omega⟩)
  refine ⟨out, h1, fun i hi => ?_⟩
  obtain ⟨p, hp, hp36⟩ := PERM_entry i hi
  have hinv : PERM[p]? = some ((i : Nat) : Int) := PERM_involutive i hi p hp36 hp
  exact ⟨p, hp, hp36, codon_at_eq_of_get (fun t ht => h5 p i t hp36 hinv ht),
    codon_at_eq_of_get (fun t ht => h5 i p t hi hp ht)⟩

/-! ## The shipped data -/

/-- Claim C17: on the shipped constants the folded sequence computed by `main` differs from
`TARGET` exactly at the indices 4 and 11. -/
theorem deviation_positions :
    ∃ folded, pipeline_with PERM = some (some folded) ∧ folded.length = 36 ∧
      TARGET.length = 36 ∧
      ∀ i, i < 36 → (folded[i]? ≠ TARGET[i]? ↔ i = 4 ∨ i = 11) :=
  ⟨FOLDED_SHIPPED, pipeline_shipped, by decide!, by decide!, by decide!⟩

/-- Claim C18: the block `UGA` is the key of entry 14 of the table, its value is `0x3F`, and
`translate_codon` returns `0x3F` on it, the byte it also returns on `AAA`, which is not a key:
the byte `0x3F` does not tell a missing entry from the entry of `UGA`. -/
theorem sentinel_not_exclusive :
    CODON_TABLE_KEYS[14]? = some (cstr "UGA") ∧ CODON_TABLE_VALS[14]? = some 0x3F ∧
    translate_codon (cstr "UGA") = some 0x3F ∧
    cstr "AAA" ∉ CODON_TABLE_KEYS ∧ translate_codon (cstr "AAA") = some 0x3F ∧
    ¬ ∀ codon : List Nat, translate_codon codon = some 0x3F →
      ∀ key ∈ CODON_TABLE_KEYS, codon.take 3 ≠ key.take 3 := by
  refine ⟨by decide!, by decide!, by decide!, by decide!, by decide!, fun h => ?_⟩
  exact h (cstr "UGA") (by decide!) (cstr "UGA") (by decide!) rfl

/-- Claim C19: the shipped template has exactly 108 symbols, all among `A`, `T`, `C`, `G`,
before its NUL; its transcription contains no `?`; each of its 36 blocks is a key of the table,
and the byte mapped for it, with the shipped table as with the corrected one, is the value of
that key. -/
theorem no_fallback_on_shipped_data :
    DNA_TEMPLATE.length = 109 ∧ DNA_TEMPLATE[108]? = some 0 ∧
    (∀ c ∈ DNA_TEMPLATE.take 108, c ∈ ascii "ATCG") ∧
    transcribe DNA_TEMPLATE (List.replicate (N_BASES + 1) 0) N_BASES = some MRNA_SHIPPED ∧
    '?'.toNat ∉ MRNA_SHIPPED ∧ CODON_TABLE_KEYS.length = 31 ∧
    (∀ i, i < 36 → ∃ k, k < 31 ∧
      (CODON_TABLE_KEYS[k]?).map (List.take 3) = some (codon_at MRNA_SHIPPED i) ∧
      AA_FIXED[i]? = CODON_TABLE_VALS[k]?) ∧
    (∀ i, i < 36 → ∃ k, k < 31 ∧
      (CODON_TABLE_KEYS[k]?).map (List.take 3) = some (codon_at MRNA_REORDERED_SHIPPED i) ∧
      AA_SHIPPED[i]? = CODON_TABLE_VALS[k]?) ∧
    translate MRNA_SHIPPED (List.replicate N_CODONS 0) N_CODONS = some AA_FIXED ∧
    translate MRNA_REORDERED_SHIPPED (List.replicate N_CODONS 0) N_CODONS = some AA_SHIPPED :=
  ⟨by decide!, by decide!, by decide!, transcribe_shipped, by decide!, by decide!, by decide!,
   by decide!, translate_fixed, translate_shipped⟩

/-! ## Further instances on concrete data -/

/-- Instance of C11: the shipped template with the symbol `N` at position 13, in block 4. -/
theorem sentinel_propagation_witness :
    108 ≤ (DNA_TEMPLATE.set 13 78).length ∧ 108 < (List.replicate 109 0).length ∧
    36 ≤ (List.replicate 36 0).length ∧ 13 < 108 ∧ (DNA_TEMPLATE.set 13 78)[13]? = some 78 ∧
    78 ≠ 'A'.toNat ∧ 78 ≠ 'T'.toNat ∧ 78 ≠ 'C'.toNat ∧ 78 ≠ 'G'.toNat ∧
    (∀ key ∈ CODON_TABLE_KEYS, '?'.toNat ∉ key) ∧
    ∃ mrna mrna_reordered aa_seq,
      transcribe (DNA_TEMPLATE.set 13 78) (List.replicate 109 0) N_BASES = some mrna ∧
      mrna[13]? = some '?'.toNat ∧
      reorder_codons mrna (List.replicate 109 0) N_CODONS = some mrna_reordered ∧
      translate mrna_reordered (List.replicate 36 0) N_CODONS = some aa_seq ∧
      ∀ j, j < 36 → PERM[j]? = some ((13 / 3 : Nat) : Int) → aa_seq[j]? = some 0x3F :=
  ⟨by decide, by decide, by decide, by decide, by decide, by decide, by decide, by decide,
   by decide,
   sentinel_propagation (DNA_TEMPLATE.set 13 78) (List.replicate 109 0) (List.replicate 109 0)
     (List.replicate 36 0) 13 78 (by decide) (by decide) (by decide) (by decide) (by decide)
     (by decide) (by decide) (by decide) (by decide) (by decide)⟩

/-- Instance of C13: the empty string as source and one-byte string buffers. -/
theorem empty_boundary_witness :
    0 < (List.replicate 1 7).length ∧ 0 < (List.replicate 1 9).length ∧
    transcribe (cstr "") (List.replicate 1 7) 0 = some ((List.replicate 1 7).set 0 0) ∧
    ((List.replicate 1 7).set 0 0)[0]? = some 0 ∧
    reorder_codons (cstr "") (List.replicate 1 9) 0 = some ((List.replicate 1 9).set 0 0) ∧
    ((List.replicate 1 9).set 0 0)[0]? = some 0 ∧
    translate (cstr "") [] 0 = some [] ∧ translate (cstr "") [] 0 = some [] ∧
    fold [] [] 0 = some [] ∧ fold [] [] 0 = some [] ∧
    main_compare [] [] 0 = some Verdict.Match ∧
    main_compare [] [] 0 = some Verdict.Match :=
  ⟨by decide, by decide,
   empty_boundary (cstr "") (List.replicate 1 7) (cstr "") (List.replicate 1 9) [] [] []
     (by decide) (by decide)⟩

/-- Instance of C14: the amino acid codes of the shipped pipeline. -/
theorem validate_structure_always_one_witness :
    AA_SHIPPED ≠ [] ∧ 36 ≤ AA_SHIPPED.length ∧ (∀ v ∈ AA_SHIPPED, v < 256) ∧
    validate_structure AA_SHIPPED 36 = some 1 ∧
    (∃ v, AA_SHIPPED[0]? = some v ∧ v * v ≤ 65025 ∧ 65025 < 2 ^ 31) ∧
    (∀ (dna : List Nat) (perm : List Int)
      (target mrna0 mrna_reordered0 aa_seq0 folded0 : List Nat) (res : Int × Option Verdict),
      main_on dna perm target mrna0 mrna_reordered0 aa_seq0 folded0 = some res → res.1 = 0) ∧
    ∃ v, main = some (0, some v) :=
  ⟨by decide, by decide, AA_SHIPPED_bytes,
   validate_structure_always_one AA_SHIPPED 36 (by decide) (by decide) AA_SHIPPED_bytes⟩

/-- Instance of C15: the reads of `reorder_codons` on the transcribed template. -/
theorem PERM_reads_in_range_witness :
    108 ≤ MRNA_SHIPPED.length ∧ 108 < (List.replicate 109 0).length ∧
    PERM.length = 36 ∧ (∀ p ∈ PERM, 0 ≤ p ∧ p < 36) ∧
    (∀ (i : Nat) (src k : Int), i < 36 → PERM[i]? = some src → 0 ≤ k → k ≤ 2 →
      0 ≤ src * 3 + k ∧ src * 3 + k < 108 ∧ ∃ c, load MRNA_SHIPPED (src * 3 + k) = some c) ∧
    ∃ out, reorder_codons MRNA_SHIPPED (List.replicate 109 0) 36 = some out :=
  ⟨by decide, by decide,
   PERM_reads_in_range MRNA_SHIPPED (List.replicate 109 0) (by decide) (by decide)⟩

/-- Instance of C16: the direction of the reordering on the transcribed template. -/
theorem reorder_codons_direction_witness :
    108 ≤ MRNA_SHIPPED.length ∧ 108 < (List.replicate 109 0).length ∧
    ∃ out, reorder_codons MRNA_SHIPPED (List.replicate 109 0) 36 = some out ∧
      ∀ i, i < 36 → ∃ p : Nat, PERM[i]? = some (p : Int) ∧ p < 36 ∧
        codon_at out p = codon_at MRNA_SHIPPED i ∧ codon_at out i = codon_at MRNA_SHIPPED p :=
  ⟨by decide, by decide,
   reorder_codons_direction MRNA_SHIPPED (List.replicate 109 0) (by decide) (by decide)⟩

end CorruptedGene
